import Mathlib

set_option maxRecDepth 100000

/-!
Verification of the duct-sizing / duct-routing core of the repository.

The development shallowly embeds the relevant source functions:

* `Sizing` — the pure sizing mathematics of `src/duct/router_1st.py`
  (`calc_circular_diameter`, `round_step_up`, `round_step_down`,
  `rect_equiv_diameter`, `size_rect_from_D1`); the same functions appear
  verbatim in `src/calc/room drawer.py` (the only difference there is that
  `calc_circular_diameter` additionally rounds its result to an integer,
  a display concern that none of the claims about these functions touch).
  Floating point is idealised as exact real arithmetic; the final
  display conversions of `size_rect_from_D1` (`int(round(.))` of values that
  are already exact multiples of the step, and `round(., 1)` of the reported
  diameters) are omitted as presentation-only.

* `Router` — the rectilinear routing pipeline of `src/duct/router_1st.py`
  (`_manhattan`, `_prim_mst`, `_mst_length`, `_hanan_candidates`,
  `_iterated_1_steiner`, `_norm_seg`, `_l_route_options`, `_overlap_score`,
  `_route_edge_and_store`, `auto_route_and_draw`), over integer grid indices
  exactly as the source stores them.  The Python `set` of normalised segments
  is modelled as a duplicate-free list with membership-checked insertion.

* `RouterPalette` — the palette point list of `src/duct/router_1st.py` and its
  `delete_point` re-tagging logic (canvas-item bookkeeping is omitted).

* `RoomDrawer` — the spine-and-branch network builder `draw_duct_network`
  and the relocation logic `_move_connected_segments` of
  `src/calc/room drawer.py`, over exact rationals (model coordinates are
  floats in the source; every tolerance, 1e-9, 1e-6 and the 0.5 grouping
  tolerance, is carried exactly).  The builder invokes the real-valued
  sizing functions only inside `try/except ValueError`; the only effect of
  such a call on the produced segment set is whether it raises, and by the
  guards of `calc_circular_diameter` / `size_rect_from_D1` it raises exactly
  when the flow, the pressure-drop rate or the aspect ratio is non-positive.
  The builder embedding therefore records that success condition
  (`sizing_ok`) and tracks for every segment the fields the builder computes
  itself: endpoints, orientation and conveyed flow.  The relocator embedding
  (`RSeg`) additionally carries the sizing-derived fields (width, height,
  diameter), because `_move_connected_segments` copies them verbatim.
-/

namespace Sizing

/-- `round_step_up` of `router_1st.py` / `room drawer.py`:
`math.ceil(x / step) * step`. -/
noncomputable def round_step_up (x step : ℝ) : ℝ := (⌈x / step⌉ : ℝ) * step

/-- `round_step_down` of `router_1st.py` / `room drawer.py`:
`math.floor(x / step) * step`. -/
noncomputable def round_step_down (x step : ℝ) : ℝ := (⌊x / step⌋ : ℝ) * step

/-- The positive branch of `calc_circular_diameter`:
`D = ((C * Q**1.9 / dp) ** 0.199) * 1000` with `C = 3.295e-10`. -/
noncomputable def D_formula (q dp : ℝ) : ℝ :=
  (((3.295e-10) * q ^ (1.9 : ℝ) / dp) ^ (0.199 : ℝ)) * 1000

/-- `calc_circular_diameter` of `router_1st.py`: raises (here: `none`) when
`q ≤ 0` or `dp ≤ 0`, otherwise returns `D_formula q dp`. -/
noncomputable def calc_circular_diameter (q dp : ℝ) : Option ℝ :=
  if q ≤ 0 then none
  else if dp ≤ 0 then none
  else some (D_formula q dp)

/-- The positive branch of `rect_equiv_diameter`:
`De = 1.30 * (a*b)**0.625 / (a + b)**0.25`. -/
noncomputable def rect_De (a b : ℝ) : ℝ :=
  1.30 * (a * b) ^ (0.625 : ℝ) / (a + b) ^ (0.25 : ℝ)

/-- `rect_equiv_diameter`: raises (here: `none`) when `a ≤ 0` or `b ≤ 0`,
otherwise returns `rect_De a b`. -/
noncomputable def rect_equiv_diameter (a b : ℝ) : Option ℝ :=
  if a ≤ 0 ∨ b ≤ 0 then none else some (rect_De a b)

/-- `a_theo = De_target * (1 + r)**0.25 / (1.30 * r**0.625)` of
`size_rect_from_D1`. -/
noncomputable def a_theo (D1 r : ℝ) : ℝ :=
  D1 * (1 + r) ^ (0.25 : ℝ) / (1.30 * r ^ (0.625 : ℝ))

/-- `b_theo = r * a_theo` of `size_rect_from_D1`. -/
noncomputable def b_theo (D1 r : ℝ) : ℝ := r * a_theo D1 r

/-- `theo_big = max(a_theo, b_theo)` of `size_rect_from_D1`. -/
noncomputable def theo_big (D1 r : ℝ) : ℝ := max (a_theo D1 r) (b_theo D1 r)

/-- `theo_small = min(a_theo, b_theo)` of `size_rect_from_D1`. -/
noncomputable def theo_small (D1 r : ℝ) : ℝ := min (a_theo D1 r) (b_theo D1 r)

/-- Candidate (i), small side: `small_up = round_step_up(theo_small, step)`. -/
noncomputable def small_up (D1 r step : ℝ) : ℝ :=
  round_step_up (theo_small D1 r) step

/-- Candidate (i), big side:
`big_down = max(round_step_down(theo_big, step), step)`. -/
noncomputable def big_down (D1 r step : ℝ) : ℝ :=
  max (round_step_down (theo_big D1 r) step) step

/-- Candidate (ii): `a_up = round_step_up(a_theo, step)`. -/
noncomputable def a_up (D1 r step : ℝ) : ℝ := round_step_up (a_theo D1 r) step

/-- Candidate (ii): `b_up = round_step_up(b_theo, step)`. -/
noncomputable def b_up (D1 r step : ℝ) : ℝ := round_step_up (b_theo D1 r) step

/-- Equivalent diameter of candidate (i):
`De1 = rect_equiv_diameter(small_up, big_down)` (defined value). -/
noncomputable def De1 (D1 r step : ℝ) : ℝ :=
  rect_De (small_up D1 r step) (big_down D1 r step)

/-- Equivalent diameter of candidate (ii):
`De2 = rect_equiv_diameter(a_up, b_up)` (defined value). -/
noncomputable def De2 (D1 r step : ℝ) : ℝ :=
  rect_De (a_up D1 r step) (b_up D1 r step)

/-- `size_rect_from_D1` of `router_1st.py` / `room drawer.py`.  Raises on
non-positive `D1` or `r`; a `ValueError` from either inner
`rect_equiv_diameter` call propagates; candidate (i) is taken when
`De1 >= De_target`, else candidate (ii).  The returned quintuple is
`(sel_big, sel_small, De_sel, theo_big, theo_small)`; the source's
trailing `int(round(.))` / `round(., 1)` presentation conversions are
omitted. -/
noncomputable def size_rect_from_D1 (D1 r step : ℝ) : Option (ℝ × ℝ × ℝ × ℝ × ℝ) :=
  if D1 ≤ 0 then none
  else if r ≤ 0 then none
  else
    match rect_equiv_diameter (small_up D1 r step) (big_down D1 r step),
        rect_equiv_diameter (a_up D1 r step) (b_up D1 r step) with
    | some d1, some d2 =>
        if D1 ≤ d1 then
          some (max (small_up D1 r step) (big_down D1 r step),
                min (small_up D1 r step) (big_down D1 r step),
                d1, theo_big D1 r, theo_small D1 r)
        else
          some (max (a_up D1 r step) (b_up D1 r step),
                min (a_up D1 r step) (b_up D1 r step),
                d2, theo_big D1 r, theo_small D1 r)
    | _, _ => none

end Sizing

namespace Router

/-- A palette point in integer grid indices, exactly as
`_get_terminals_canvas_xy` returns them. -/
abbrev Pt := ℤ × ℤ

/-- `_manhattan` of `router_1st.py`. -/
def manhattan (a b : Pt) : ℤ := |a.1 - b.1| + |a.2 - b.2|

/-- The `10**18` sentinel used by `_prim_mst` for distances. -/
def BIG : ℤ := 10 ^ 18

/-- The mutable state of `_prim_mst`: `in_tree`, `dist`, `parent` arrays. -/
structure PrimSt where
  in_tree : List Bool
  dist : List ℤ
  parent : List ℤ
deriving DecidableEq, Repr

/-- The selection scan of `_prim_mst`: first index `u` (in increasing order)
not in the tree whose distance strictly improves on the best so far,
starting from `best = 10**18`; `none` when every remaining distance is
still the sentinel. -/
def pick_u (st : PrimSt) (n : Nat) : Option Nat :=
  ((List.range n).foldl
    (fun (acc : Option Nat × ℤ) i =>
      if st.in_tree.getD i true = false ∧ st.dist.getD i BIG < acc.2 then
        (some i, st.dist.getD i BIG)
      else acc)
    ((none : Option Nat), BIG)).1

/-- The relaxation scan of `_prim_mst` after `u` enters the tree. -/
def relax (pts : List Pt) (u : Nat) (n : Nat) (st : PrimSt) : PrimSt :=
  (List.range n).foldl
    (fun s v =>
      if s.in_tree.getD v true = true ∨ v = u then s
      else
        let w := manhattan (pts.getD u (0, 0)) (pts.getD v (0, 0))
        if w < s.dist.getD v BIG then
          ⟨s.in_tree, s.dist.set v w, s.parent.set v (Int.ofNat u)⟩
        else s)
    st

/-- The main loop of `_prim_mst`, run `n` times, stopping early when no
selectable vertex remains. -/
def prim_loop (pts : List Pt) (n : Nat) : Nat → PrimSt → PrimSt
  | 0, st => st
  | fuel + 1, st =>
    match pick_u st n with
    | none => st
    | some u =>
        prim_loop pts n fuel (relax pts u n ⟨st.in_tree.set u true, st.dist, st.parent⟩)

/-- `_prim_mst` of `router_1st.py`: Manhattan-distance Prim MST, returning
edges `(v, parent v)` for `v = 1 .. n-1` with a set parent. -/
def prim_mst (pts : List Pt) : List (Nat × Nat) :=
  let n := pts.length
  if n ≤ 1 then []
  else
    let st0 : PrimSt :=
      ⟨List.replicate n false, (List.replicate n BIG).set 0 0, List.replicate n (-1)⟩
    let st := prim_loop pts n n st0
    (List.range n).filterMap fun v =>
      if 1 ≤ v ∧ st.parent.getD v (-1) ≠ -1 then
        some (v, (st.parent.getD v (-1)).toNat)
      else none

/-- `_mst_length` of `router_1st.py`. -/
def mst_length (pts : List Pt) (edges : List (Nat × Nat)) : ℤ :=
  edges.foldl (fun t e => t + manhattan (pts.getD e.1 (0, 0)) (pts.getD e.2 (0, 0))) 0

/-- Ascending duplicate-free listing of a list of integers, the model of
Python `sorted(set(l))`. -/
def sorted_unique_int (l : List ℤ) : List ℤ :=
  List.insertionSort (fun a b => a ≤ b) l.dedup

/-- `_hanan_candidates` of `router_1st.py`: all pairs of terminal
x-coordinates and terminal y-coordinates, x-major. -/
def hanan_candidates (terminals : List Pt) : List Pt :=
  let xs := sorted_unique_int (terminals.map (fun p => p.1))
  let ys := sorted_unique_int (terminals.map (fun p => p.2))
  xs.flatMap fun x => ys.map fun y => (x, y)

/-- One candidate scan of `_iterated_1_steiner`: for each unused Hanan point
`s`, the MST length of `P ++ [s]`; keep the strict-improvement best,
seeded with the current MST length. -/
def best_candidate (terminals P : List Pt) : Option Pt × ℤ :=
  let base_L := mst_length P (prim_mst P)
  (hanan_candidates terminals).foldl
    (fun (acc : Option Pt × ℤ) s =>
      if s ∈ P then acc
      else
        let testP := P ++ [s]
        let test_L := mst_length testP (prim_mst testP)
        if test_L < acc.2 then (some s, test_L) else acc)
    ((none : Option Pt), base_L)

/-- The outer loop of `_iterated_1_steiner`: up to `max_add` additions,
stopping when no candidate improves or the improvement is below
`min_improve`. -/
def i1s_iter (terminals : List Pt) (min_improve : ℤ) : Nat → List Pt → List Pt
  | 0, P => P
  | fuel + 1, P =>
    let base_L := mst_length P (prim_mst P)
    match best_candidate terminals P with
    | (none, _) => P
    | (some s, best_L) =>
        if base_L - best_L < min_improve then P
        else i1s_iter terminals min_improve fuel (P ++ [s])

/-- `_iterated_1_steiner` of `router_1st.py`: the final point set and its
MST edges. -/
def iterated_1_steiner (terminals : List Pt) (max_add : Nat) (min_improve : ℤ) :
    List Pt × List (Nat × Nat) :=
  let P := i1s_iter terminals min_improve max_add terminals
  (P, prim_mst P)

/-- Orientation tag of a normalised segment (`'H'` / `'V'` in the source). -/
inductive Orient
  | H
  | V
deriving DecidableEq, Repr

/-- A normalised axis-aligned duct segment `(orient, fixed, a, b)` as stored
in `duct_segments`. -/
structure NSeg where
  orient : Orient
  fixed : ℤ
  a : ℤ
  b : ℤ
deriving DecidableEq, Repr

/-- `_norm_seg` of `router_1st.py`: `none` for the degenerate point; a
diagonal input (which the source rejects with an exception and which the
L-route construction never produces) is also mapped to `none`. -/
def norm_seg (x1 y1 x2 y2 : ℤ) : Option NSeg :=
  if x1 = x2 ∧ y1 = y2 then none
  else if x1 = x2 then some ⟨Orient.V, x1, min y1 y2, max y1 y2⟩
  else if y1 = y2 then some ⟨Orient.H, y1, min x1 x2, max x1 x2⟩
  else none

/-- `_l_route_options` of `router_1st.py`: the x-then-y route and the
y-then-x route, each with degenerate pieces dropped. -/
def l_route_options (a b : Pt) : List NSeg × List NSeg :=
  let x1 := a.1
  let y1 := a.2
  let x2 := b.1
  let y2 := b.2
  let opt1 := (norm_seg x1 y1 x2 y1).toList ++ (norm_seg x2 y1 x2 y2).toList
  let opt2 := (norm_seg x1 y1 x1 y2).toList ++ (norm_seg x1 y2 x2 y2).toList
  (opt1, opt2)

/-- `_overlap_score` of `router_1st.py`: how many of the option's segments
already occur in the stored set. -/
def overlap_score (ducts : List NSeg) (option_segs : List NSeg) : Nat :=
  option_segs.foldl (fun score s => if s ∈ ducts then score + 1 else score) 0

/-- `_add_seg_to_set`: set insertion (duplicates dropped, no merging). -/
def add_seg_to_set (ducts : List NSeg) (s : NSeg) : List NSeg :=
  if s ∈ ducts then ducts else ducts ++ [s]

/-- `_route_edge_and_store` of `router_1st.py`: pick the option with the
strictly better overlap score (ties favour option 1) and store its
segments. -/
def route_edge_and_store (ducts : List NSeg) (a b : Pt) : List NSeg :=
  let opts := l_route_options a b
  let chosen := if overlap_score ducts opts.1 < overlap_score ducts opts.2 then opts.2 else opts.1
  chosen.foldl add_seg_to_set ducts

/-- The result of `auto_route_and_draw`: augmented point set, MST edges,
stored segment set and the recorded Steiner nodes. -/
structure RouteResult where
  P : List Pt
  edges : List (Nat × Nat)
  ducts : List NSeg
  steiner_nodes : List Pt
deriving DecidableEq, Repr

/-- The routing core of `auto_route_and_draw` of `router_1st.py` (the canvas
drawing that follows is excluded rendering): `_iterated_1_steiner` with
`max_add=30, min_improve=1`, Steiner-node recording, then edge-by-edge
L-routing into the (initially cleared) segment set. -/
def auto_route_and_draw (terminals : List Pt) : RouteResult :=
  let pe := iterated_1_steiner terminals 30 1
  let P := pe.1
  let edges := pe.2
  let steiner := P.filter fun p => decide (¬ p ∈ terminals)
  let ducts := edges.foldl
    (fun d e => route_edge_and_store d (P.getD e.1 (0, 0)) (P.getD e.2 (0, 0))) []
  ⟨P, edges, ducts, steiner⟩

/-- Length of one normalised segment. -/
def nseg_length (s : NSeg) : ℤ := s.b - s.a

/-- Total Manhattan length of the stored segment set. -/
def total_length (ducts : List NSeg) : ℤ :=
  (ducts.map nseg_length).sum

end Router

namespace RouterPalette

/-- The `'inlet'` / `'outlet'` tag of a palette point of `router_1st.py`. -/
inductive PType
  | inlet
  | outlet
deriving DecidableEq, Repr

/-- A palette point: grid indices plus tag (the canvas-item ids and the
world-coordinate backup of the source dictionary are rendering
bookkeeping). -/
structure PPoint where
  gx_index : ℤ
  gy_index : ℤ
  ptype : PType
deriving DecidableEq, Repr

/-- The re-tagging loop at the end of `delete_point`: the first remaining
point becomes `'inlet'`, every other becomes `'outlet'`. -/
def retag (pts : List PPoint) : List PPoint :=
  pts.mapIdx fun i p => ⟨p.gx_index, p.gy_index, if i = 0 then PType.inlet else PType.outlet⟩

/-- `delete_point` of `router_1st.py`: out-of-range indices return the list
unchanged; otherwise the point is removed and the rest re-tagged (the
`item_to_point` canvas map and popup handling are excluded rendering). -/
def delete_point (pts : List PPoint) (idx : Nat) : List PPoint :=
  if idx < pts.length then retag (pts.eraseIdx idx) else pts

end RouterPalette

namespace RoomDrawer

/-- The point tag of `room drawer.py`'s `AirPoint` (`"inlet"` / `"outlet"`). -/
inductive AKind
  | inlet
  | outlet
deriving DecidableEq, Repr

/-- `AirPoint` of `room drawer.py`: model coordinates plus tag and assigned
airflow (canvas item ids are excluded rendering). -/
structure AirPoint where
  mx : ℚ
  my : ℚ
  kind : AKind
  flow : ℚ
deriving DecidableEq, Repr

instance : Inhabited AirPoint := ⟨⟨0, 0, AKind.outlet, 0⟩⟩

/-- The fields of `DuctSegment` that `draw_duct_network` computes itself:
endpoints, conveyed flow and orientation.  The sizing-derived label /
width / height / diameter fields are outputs of the real-valued
`Sizing` functions and affect the build only through the success of the
sizing call (see `sizing_ok`). -/
structure BSeg where
  mx1 : ℚ
  my1 : ℚ
  mx2 : ℚ
  my2 : ℚ
  flow : ℚ
  vertical_only : Bool
deriving DecidableEq, Repr

/-- The `1e-9` coincidence tolerance used throughout `room drawer.py`. -/
def eps : ℚ := 1 / 1000000000

/-- The `1e-6` flow-imbalance tolerance of `draw_duct_network`. -/
def eps6 : ℚ := 1 / 1000000

/-- Python `abs` on exact rationals, written executably (Mathlib's lattice
`|.|` does not reduce in the kernel). -/
def rabs (x : ℚ) : ℚ := if x < 0 then -x else x

/-- Success of one sizing attempt
(`calc_circular_diameter` + `size_rect_from_D1` inside `try/except`): by
the guards of those functions the attempt raises `ValueError` exactly when
the flow, the pressure-drop rate or the aspect ratio is non-positive. -/
def sizing_ok (dp r q : ℚ) : Bool :=
  decide (0 < q) && decide (0 < dp) && decide (0 < r)

/-- Python's stable `sorted(outlet_list, key=lambda p: p.my)`. -/
def sortByY (l : List AirPoint) : List AirPoint :=
  List.insertionSort (fun a b => a.my ≤ b.my) l

/-- Python's stable `sorted(group, key=lambda p: p.mx)`. -/
def sortByX (l : List AirPoint) : List AirPoint :=
  List.insertionSort (fun a b => a.mx ≤ b.mx) l

/-- Python's stable `sorted(group, key=lambda p: p.mx, reverse=True)`. -/
def sortByXDesc (l : List AirPoint) : List AirPoint :=
  List.insertionSort (fun a b => b.mx ≤ a.mx) l

/-- The grouping scan of `group_outlets_by_y`: `anchor` is the y-coordinate
of the first member of the current group. -/
def group_go (tol : ℚ) : List AirPoint → ℚ → List AirPoint → List (List AirPoint)
  | cur, _, [] => [cur]
  | cur, anchor, p :: rest =>
    if rabs (p.my - anchor) ≤ tol then group_go tol (cur ++ [p]) anchor rest
    else cur :: group_go tol [p] p.my rest

/-- `group_outlets_by_y` of `draw_duct_network`: sort by `my`, then chain
together outlets whose `my` lies within `tol` of the first member of the
current group. -/
def group_outlets_by_y (l : List AirPoint) (tol : ℚ) : List (List AirPoint) :=
  match sortByY l with
  | [] => []
  | p :: rest => group_go tol [p] p.my rest

/-- Representative x-coordinate of a right-side group:
`sorted(group, key=mx)[0].mx`. -/
def group_first_x_right (g : List AirPoint) : ℚ := ((sortByX g).headD default).mx

/-- Representative x-coordinate of a left-side group:
`sorted(group, key=mx, reverse=True)[0].mx`. -/
def group_first_x_left (g : List AirPoint) : ℚ := ((sortByXDesc g).headD default).mx

/-- `sum(ot.flow for ot in group)`. -/
def group_flow (g : List AirPoint) : ℚ := (g.map fun p => p.flow).sum

/-- Python dict assignment `m[k] = v`: overwrite in place when the key
exists, else append (insertion order preserved). -/
def dict_insert (m : List (ℚ × ℚ)) (k v : ℚ) : List (ℚ × ℚ) :=
  if m.any fun p => p.1 = k then m.map fun p => if p.1 = k then (k, v) else p
  else m ++ [(k, v)]

/-- `outlets` strictly right of the inlet (`ot.mx > inlet.mx + 1e-9`). -/
def right_outlets (inlet : AirPoint) (outlets : List AirPoint) : List AirPoint :=
  outlets.filter fun ot => decide (inlet.mx + eps < ot.mx)

/-- `outlets` strictly left of the inlet (`ot.mx < inlet.mx - 1e-9`). -/
def left_outlets (inlet : AirPoint) (outlets : List AirPoint) : List AirPoint :=
  outlets.filter fun ot => decide (ot.mx < inlet.mx - eps)

/-- `outlets` at the inlet's x (`abs(ot.mx - inlet.mx) <= 1e-9`). -/
def center_outlets (inlet : AirPoint) (outlets : List AirPoint) : List AirPoint :=
  outlets.filter fun ot => decide (rabs (ot.mx - inlet.mx) ≤ eps)

/-- The right-side y-groups of `draw_duct_network` (tolerance 0.5). -/
def right_groups (inlet : AirPoint) (outlets : List AirPoint) : List (List AirPoint) :=
  group_outlets_by_y (right_outlets inlet outlets) (1 / 2)

/-- The left-side y-groups of `draw_duct_network` (tolerance 0.5). -/
def left_groups (inlet : AirPoint) (outlets : List AirPoint) : List (List AirPoint) :=
  group_outlets_by_y (left_outlets inlet outlets) (1 / 2)

/-- `right_group_map`: dict from each right group's representative x to the
group's total flow, built in group order. -/
def right_group_map (inlet : AirPoint) (outlets : List AirPoint) : List (ℚ × ℚ) :=
  (right_groups inlet outlets).foldl
    (fun m g => dict_insert m (group_first_x_right g) (group_flow g)) []

/-- `left_group_map`: dict from each left group's representative x to the
group's total flow, built in group order. -/
def left_group_map (inlet : AirPoint) (outlets : List AirPoint) : List (ℚ × ℚ) :=
  (left_groups inlet outlets).foldl
    (fun m g => dict_insert m (group_first_x_left g) (group_flow g)) []

/-- `sum(map.values())`. -/
def dict_values_sum (m : List (ℚ × ℚ)) : ℚ := (m.map fun p => p.2).sum

/-- `flow_downstream_from_right(x_pos)`: total flow of map entries with
`group_x > x_pos + 1e-9`. -/
def flow_downstream_from_right (m : List (ℚ × ℚ)) (x_pos : ℚ) : ℚ :=
  ((m.filter fun p => decide (x_pos + eps < p.1)).map fun p => p.2).sum

/-- `flow_downstream_from_left(x_pos)`: total flow of map entries with
`group_x < x_pos - 1e-9`. -/
def flow_downstream_from_left (m : List (ℚ × ℚ)) (x_pos : ℚ) : ℚ :=
  ((m.filter fun p => decide (p.1 < x_pos - eps)).map fun p => p.2).sum

/-- Ascending duplicate-free listing: Python `sorted(set(l))`. -/
def sorted_unique (l : List ℚ) : List ℚ :=
  List.insertionSort (fun a b => a ≤ b) l.dedup

/-- Descending duplicate-free listing: Python `sorted(set(l), reverse=True)`
(equal, for distinct values, to the reverse of the ascending listing). -/
def sorted_unique_desc (l : List ℚ) : List ℚ := (sorted_unique l).reverse

/-- The right-spine construction of `draw_duct_network` (section 5): walk
consecutive node pairs of `sorted(set([inlet.mx] + right_group_map.keys()))`;
skip near-coincident pairs; the flow is the whole right side's total when
`x1` is the inlet node, else `flow_downstream_from_right x1`; skip
non-positive flows and failed sizing calls. -/
def spine_segs_right (inlet : AirPoint) (m : List (ℚ × ℚ)) (dp r : ℚ) : List BSeg :=
  let x_nodes := sorted_unique (inlet.mx :: m.map fun p => p.1)
  (x_nodes.zip x_nodes.tail).filterMap fun q =>
    let x1 := q.1
    let x2 := q.2
    if rabs (x2 - x1) < eps then none
    else
      let Q := if rabs (x1 - inlet.mx) < eps then dict_values_sum m
        else flow_downstream_from_right m x1
      if Q ≤ 0 then none
      else if sizing_ok dp r Q then some ⟨x1, inlet.my, x2, inlet.my, Q, false⟩
      else none

/-- The left-spine construction of `draw_duct_network` (section 6), the
mirror image over `sorted(set(...), reverse=True)`. -/
def spine_segs_left (inlet : AirPoint) (m : List (ℚ × ℚ)) (dp r : ℚ) : List BSeg :=
  let x_nodes := sorted_unique_desc (inlet.mx :: m.map fun p => p.1)
  (x_nodes.zip x_nodes.tail).filterMap fun q =>
    let x1 := q.1
    let x2 := q.2
    if rabs (x2 - x1) < eps then none
    else
      let Q := if rabs (x1 - inlet.mx) < eps then dict_values_sum m
        else flow_downstream_from_left m x1
      if Q ≤ 0 then none
      else if sizing_ok dp r Q then some ⟨x1, inlet.my, x2, inlet.my, Q, false⟩
      else none

/-- `sum(group_sorted[j].flow for j in range(i + 1, len(group_sorted)))`. -/
def branch_tail_flow (gs : List AirPoint) (i : Nat) : ℚ :=
  ((gs.drop (i + 1)).map fun p => p.flow).sum

/-- The per-outlet body of the multi-outlet branch loop of
`draw_duct_network`: a non-positive outlet flow skips the outlet; for a
non-final outlet the horizontal distributor towards the next outlet is
sized by the remaining downstream flow, and a failed sizing there
`continue`s past the outlet's vertical stub as well; the vertical stub to
the outlet is built only when the outlet is off the group's y. -/
def branch_pieces (dp r group_y : ℚ) (gs : List AirPoint) (i : Nat) (ot : AirPoint) :
    List BSeg :=
  if ot.flow ≤ 0 then []
  else
    let vert : List BSeg :=
      if eps < rabs (group_y - ot.my) then
        if sizing_ok dp r ot.flow then [⟨ot.mx, group_y, ot.mx, ot.my, ot.flow, true⟩]
        else []
      else []
    if i < gs.length - 1 then
      let remaining := branch_tail_flow gs i
      if sizing_ok dp r remaining then
        ⟨(gs.getD i default).mx, group_y, (gs.getD (i + 1) default).mx, group_y,
          remaining, false⟩ :: vert
      else []
    else vert

/-- The right-side branch construction of `draw_duct_network` (section 7)
for one group: a single-outlet group gets one riser from the spine to the
outlet; a multi-outlet group gets a riser at the first (nearest-inlet)
member's x sized by the group total — a failed group-total sizing skips
the whole group — followed by the per-outlet pieces. -/
def right_group_segs (inlet : AirPoint) (dp r : ℚ) (group : List AirPoint) : List BSeg :=
  let y_main := inlet.my
  let group_y := (group.headD default).my
  if group.length = 1 then
    let ot := group.headD default
    if ot.flow ≤ 0 then []
    else if sizing_ok dp r ot.flow then [⟨ot.mx, y_main, ot.mx, ot.my, ot.flow, true⟩]
    else []
  else
    let gs := sortByX group
    let gflow := group_flow group
    if sizing_ok dp r gflow then
      ⟨(gs.headD default).mx, y_main, (gs.headD default).mx, group_y, gflow, true⟩ ::
        (gs.enum.flatMap fun p => branch_pieces dp r group_y gs p.1 p.2)
    else []

/-- The left-side branch construction of `draw_duct_network` for one group
(members sorted by descending x). -/
def left_group_segs (inlet : AirPoint) (dp r : ℚ) (group : List AirPoint) : List BSeg :=
  let y_main := inlet.my
  let group_y := (group.headD default).my
  if group.length = 1 then
    let ot := group.headD default
    if ot.flow ≤ 0 then []
    else if sizing_ok dp r ot.flow then [⟨ot.mx, y_main, ot.mx, ot.my, ot.flow, true⟩]
    else []
  else
    let gs := sortByXDesc group
    let gflow := group_flow group
    if sizing_ok dp r gflow then
      ⟨(gs.headD default).mx, y_main, (gs.headD default).mx, group_y, gflow, true⟩ ::
        (gs.enum.flatMap fun p => branch_pieces dp r group_y gs p.1 p.2)
    else []

/-- The centre-outlet stubs of `draw_duct_network` (outlets at the inlet's
x-coordinate). -/
def center_stub (inlet : AirPoint) (dp r : ℚ) (ot : AirPoint) : List BSeg :=
  if ot.flow ≤ 0 then []
  else if sizing_ok dp r ot.flow then [⟨ot.mx, inlet.my, ot.mx, ot.my, ot.flow, true⟩]
  else []

/-- The segment-construction body of `draw_duct_network` after validation, in
source order: inlet riser (its guard `abs(inlet.my - y_main) > 1e-9` is
never satisfied because `y_main = inlet.my`), right spine, left spine,
right branches, left branches, centre stubs. -/
def build_segments (inlet : AirPoint) (outlets : List AirPoint) (dp r : ℚ) : List BSeg :=
  let y_main := inlet.my
  let riser : List BSeg :=
    if eps < rabs (inlet.my - y_main) then
      if sizing_ok dp r inlet.flow then [⟨inlet.mx, inlet.my, inlet.mx, y_main, inlet.flow, true⟩]
      else []
    else []
  let ro := right_outlets inlet outlets
  let lo := left_outlets inlet outlets
  let co := center_outlets inlet outlets
  let rspine := if ro = [] then [] else spine_segs_right inlet (right_group_map inlet outlets) dp r
  let lspine := if lo = [] then [] else spine_segs_left inlet (left_group_map inlet outlets) dp r
  let rbranch := if ro = [] then [] else (right_groups inlet outlets).flatMap (right_group_segs inlet dp r)
  let lbranch := if lo = [] then [] else (left_groups inlet outlets).flatMap (left_group_segs inlet dp r)
  let cstubs := co.flatMap (center_stub inlet dp r)
  riser ++ rspine ++ lspine ++ rbranch ++ lbranch ++ cstubs

/-- The abort reasons of `draw_duct_network` (each shown as a warning box in
the source). -/
inductive BuildError
  | tooFewPoints
  | firstNotInlet
  | nonPositiveInletFlow
  | noOutlets
deriving DecidableEq, Repr

/-- Outcome of one `draw_duct_network` call: the segment list afterwards, the
abort reason if any, and whether the non-fatal flow-imbalance warning was
shown. -/
structure BuildResult where
  segments : List BSeg
  error : Option BuildError
  imbalanceWarned : Bool
deriving DecidableEq, Repr

/-- `draw_duct_network` of `room drawer.py` as a state transition on the
segment list.  Note the source order: the `len(points) < 2` check comes
before `self.segments.clear()`, but the inlet-kind, inlet-flow and
outlet-presence checks come after it. -/
def draw_duct_network (points : List AirPoint) (prev : List BSeg) (dp r : ℚ) :
    BuildResult :=
  if points.length < 2 then ⟨prev, some BuildError.tooFewPoints, false⟩
  else
    let inlet := points.headD default
    if inlet.kind ≠ AKind.inlet then ⟨[], some BuildError.firstNotInlet, false⟩
    else if inlet.flow ≤ 0 then ⟨[], some BuildError.nonPositiveInletFlow, false⟩
    else
      let outlets := points.tail.filter fun p => decide (p.kind = AKind.outlet)
      if outlets = [] then ⟨[], some BuildError.noOutlets, false⟩
      else
        let total_out := (outlets.map fun p => p.flow).sum
        let warned := decide (eps6 < rabs (total_out - inlet.flow))
        ⟨build_segments inlet outlets dp r, none, warned⟩

/-- The claim's notion for the right spine, written from the specification's
words: the total airflow of every outlet group lying strictly farther
right than a given x (each group located at its representative
nearest-inlet x).  Used to compare the built flows against the claim. -/
def spec_beyond_right (groups : List (List AirPoint)) (x : ℚ) : ℚ :=
  ((groups.filter fun g => decide (x < group_first_x_right g)).map group_flow).sum

/-- The claim's notion for the left spine: the total airflow of every outlet
group lying strictly farther left than a given x. -/
def spec_beyond_left (groups : List (List AirPoint)) (x : ℚ) : ℚ :=
  ((groups.filter fun g => decide (group_first_x_left g < x)).map group_flow).sum

/-- Lying on the palette's snap grid: model coordinates are produced by
`snap_model`, which rounds to multiples of `GRID_STEP_MODEL = 0.5`. -/
def on_half_grid (x : ℚ) : Prop := ∃ k : ℤ, x = (k : ℚ) / 2

end RoomDrawer

namespace RoomDrawer

/-- `DuctSegment` of `room drawer.py` as the relocator sees it: endpoints
plus the sizing-derived fields (`duct_w_mm`, `duct_h_mm`, `flow`,
`vertical_only`, `circular_diameter_mm`) that `_move_connected_segments`
copies verbatim into replacement segments (the text label and canvas item
ids are excluded rendering). -/
structure RSeg where
  mx1 : ℚ
  my1 : ℚ
  mx2 : ℚ
  my2 : ℚ
  duct_w : ℚ
  duct_h : ℚ
  flow : ℚ
  vertical_only : Bool
  circ : ℚ
deriving DecidableEq, Repr

instance : Inhabited RSeg := ⟨⟨0, 0, 0, 0, 0, 0, 0, false, 0⟩⟩

/-- `is_attached_to_point` inside `_move_connected_segments`: some terminal
coincides with `(x, y)` within `1e-9` in both coordinates. -/
def is_attached_to_point (points : List (ℚ × ℚ)) (x y : ℚ) : Bool :=
  points.any fun p => decide (rabs (p.1 - x) < eps) && decide (rabs (p.2 - y) < eps)

/-- Exact-endpoint adjacency of two segments, as tested by the BFS of
`_move_connected_segments`: some endpoint of `s` coincides with some
endpoint of `t` within `1e-9` in both coordinates. -/
def segs_touch (s t : RSeg) : Bool :=
  let es := [(s.mx1, s.my1), (s.mx2, s.my2)]
  let et := [(t.mx1, t.my1), (t.mx2, t.my2)]
  es.any fun e1 => et.any fun e2 =>
    decide (rabs (e1.1 - e2.1) < eps) && decide (rabs (e1.2 - e2.2) < eps)

/-- The BFS queue loop of `_move_connected_segments` over segment indices
(Python walks segment objects and compares by identity; indices model that
identity).  Fuel bounds the number of dequeues; each index is enqueued at
most once, so `segs.length + 1` dequeues suffice. -/
def bfs_go (segs : List RSeg) : Nat → List Nat → List Nat → List Nat
  | 0, _, visited => visited
  | _ + 1, [], visited => visited
  | fuel + 1, cur :: queue, visited =>
    let fresh := (List.range segs.length).filter fun j =>
      decide (¬ j ∈ visited) && segs_touch (segs.getD cur default) (segs.getD j default)
    bfs_go segs fuel (queue ++ fresh) (visited ++ fresh)

/-- The connected component (as indices, in BFS discovery order) of the
dragged segment. -/
def connected_indices (segs : List RSeg) (base : Nat) : List Nat :=
  bfs_go segs (segs.length + 1) [base] [base]

/-- What `_move_connected_segments` does to one connected segment in its
first pass: leave it (both endpoints terminal-fixed), move one or both
endpoints in place, or record it for the split pass with the would-be
endpoint pair `(pt1, pt2)`. -/
inductive MoveAction
  | stay
  | move (s : RSeg)
  | split (pt1 pt2 : ℚ × ℚ)
deriving DecidableEq, Repr

/-- The first-pass case analysis of `_move_connected_segments` for one
segment: endpoint fixedness via `is_attached_to_point`, the diagonal test
`abs(Δx) > 1e-9 and abs(Δy) > 1e-9` on the would-be result, and the
in-place endpoint updates otherwise. -/
def classify (points : List (ℚ × ℚ)) (dx dy : ℚ) (s : RSeg) : MoveAction :=
  let pt1f := is_attached_to_point points s.mx1 s.my1
  let pt2f := is_attached_to_point points s.mx2 s.my2
  if pt1f && !pt2f then
    let nx2 := s.mx2 + dx
    let ny2 := s.my2 + dy
    if decide (eps < rabs (s.mx1 - nx2)) && decide (eps < rabs (s.my1 - ny2)) then
      MoveAction.split (s.mx1, s.my1) (nx2, ny2)
    else
      MoveAction.move ⟨s.mx1, s.my1, nx2, ny2, s.duct_w, s.duct_h, s.flow, s.vertical_only, s.circ⟩
  else if pt2f && !pt1f then
    let nx1 := s.mx1 + dx
    let ny1 := s.my1 + dy
    if decide (eps < rabs (nx1 - s.mx2)) && decide (eps < rabs (ny1 - s.my2)) then
      MoveAction.split (nx1, ny1) (s.mx2, s.my2)
    else
      MoveAction.move ⟨nx1, ny1, s.mx2, s.my2, s.duct_w, s.duct_h, s.flow, s.vertical_only, s.circ⟩
  else if !pt1f && !pt2f then
    MoveAction.move ⟨s.mx1 + dx, s.my1 + dy, s.mx2 + dx, s.my2 + dy,
      s.duct_w, s.duct_h, s.flow, s.vertical_only, s.circ⟩
  else MoveAction.stay

/-- The split pass of `_move_connected_segments` for one recorded split: for
an x displacement the joint is `(pt2.x, pt1.y)` and the horizontal piece
(from `pt1` to the joint) is created before the vertical piece (joint to
`pt2`); for a y displacement the joint is `(pt1.x, pt2.y)` and the
vertical piece comes first; near-degenerate pieces are dropped; every
field other than the endpoints is copied from the original segment. -/
def split_new_segs (s : RSeg) (pt1 pt2 : ℚ × ℚ) (dx : ℚ) : List RSeg :=
  if eps < rabs dx then
    let mid : ℚ × ℚ := (pt2.1, pt1.2)
    (if eps < rabs (pt1.1 - mid.1) then
      [⟨pt1.1, pt1.2, mid.1, mid.2, s.duct_w, s.duct_h, s.flow, false, s.circ⟩]
    else []) ++
    (if eps < rabs (mid.2 - pt2.2) then
      [⟨mid.1, mid.2, pt2.1, pt2.2, s.duct_w, s.duct_h, s.flow, true, s.circ⟩]
    else [])
  else
    let mid : ℚ × ℚ := (pt1.1, pt2.2)
    (if eps < rabs (pt1.2 - mid.2) then
      [⟨pt1.1, pt1.2, mid.1, mid.2, s.duct_w, s.duct_h, s.flow, true, s.circ⟩]
    else []) ++
    (if eps < rabs (mid.1 - pt2.1) then
      [⟨mid.1, mid.2, pt2.1, pt2.2, s.duct_w, s.duct_h, s.flow, false, s.circ⟩]
    else [])

/-- The recorded splits of one `_move_connected_segments` call, in component
discovery order (Python iterates its `connected` set; the iteration order
only affects the relative order of the appended replacement pairs). -/
def splits_of (segs : List RSeg) (points : List (ℚ × ℚ)) (base : Nat) (dx dy : ℚ) :
    List (Nat × (ℚ × ℚ) × (ℚ × ℚ)) :=
  (connected_indices segs base).filterMap fun i =>
    match classify points dx dy (segs.getD i default) with
    | MoveAction.split p1 p2 => some (i, p1, p2)
    | _ => none

/-- The in-place pass of `_move_connected_segments`: every segment in
original list position, with split originals dropped, connected segments
updated per `classify`, and non-connected segments untouched. -/
def kept_segments (segs : List RSeg) (points : List (ℚ × ℚ)) (base : Nat)
    (dx dy : ℚ) : List RSeg :=
  segs.enum.filterMap fun p =>
    if (splits_of segs points base dx dy).any fun t => t.1 = p.1 then none
    else if p.1 ∈ connected_indices segs base then
      match classify points dx dy p.2 with
      | MoveAction.move s => some s
      | MoveAction.stay => some p.2
      | MoveAction.split _ _ => none
    else some p.2

/-- `_move_connected_segments` of `room drawer.py` as a function on the
segment list: connected segments are updated in place per `classify`
(non-connected ones are untouched), the split originals are removed
(Python `list.remove` removes by object identity, modelled by the index),
and each split appends its horizontal/vertical replacement pair; the
`self.points` terminal list is never modified by the source method. -/
def move_connected_segments (segs : List RSeg) (points : List (ℚ × ℚ)) (base : Nat)
    (dx dy : ℚ) : List RSeg :=
  kept_segments segs points base dx dy ++
    (splits_of segs points base dx dy).flatMap fun t =>
      split_new_segs (segs.getD t.1 default) t.2.1 t.2.2 dx

end RoomDrawer

section RoundStepClaims

/-- C9 (amended): for every real `x` and positive `step`,
`round_step_up x step` is the smallest multiple of `step` that is `≥ x`,
and `round_step_down x step` is the largest multiple of `step` that is
`≤ x`.  (No one-`step` floor is applied inside `round_step_down`; the
`max(round_step_down(...), step)` floor of the specification happens at
the call site inside `size_rect_from_D1`, see `C9_counterexample`.) -/
theorem C9_round_step_amended (x step : ℝ) (hs : 0 < step) :
    (∃ k : ℤ, Sizing.round_step_up x step = k * step)
    ∧ x ≤ Sizing.round_step_up x step
    ∧ (∀ m : ℤ, x ≤ m * step → Sizing.round_step_up x step ≤ m * step)
    ∧ (∃ k : ℤ, Sizing.round_step_down x step = k * step)
    ∧ Sizing.round_step_down x step ≤ x
    ∧ (∀ m : ℤ, (m : ℝ) * step ≤ x → (m : ℝ) * step ≤ Sizing.round_step_down x step) := by
  refine ⟨⟨⌈x / step⌉, rfl⟩, ?_, ?_, ⟨⌊x / step⌋, rfl⟩, ?_, ?_⟩
  · rw [Sizing.round_step_up]
    calc x = x / step * step := by field_simp
    _ ≤ (⌈x / step⌉ : ℝ) * step :=
      mul_le_mul_of_nonneg_right (Int.le_ceil _) hs.le
  · intro m hm
    rw [Sizing.round_step_up]
    have h1 : x / step ≤ (m : ℝ) := (div_le_iff₀ hs).mpr hm
    have h2 : (⌈x / step⌉ : ℤ) ≤ m := Int.ceil_le.mpr h1
    exact mul_le_mul_of_nonneg_right (by exact_mod_cast h2) hs.le
  · rw [Sizing.round_step_down]
    calc (⌊x / step⌋ : ℝ) * step ≤ x / step * step :=
      mul_le_mul_of_nonneg_right (Int.floor_le _) hs.le
    _ = x := by field_simp
  · intro m hm
    rw [Sizing.round_step_down]
    have h1 : (m : ℝ) ≤ x / step := (le_div_iff₀ hs).mpr hm
    have h2 : m ≤ ⌊x / step⌋ := Int.le_floor.mpr h1
    exact mul_le_mul_of_nonneg_right (by exact_mod_cast h2) hs.le

end RoundStepClaims

/-- C9 witness: the amended characterisation applied at `x = 123`,
`step = 50`. -/
theorem C9_round_step_amended_witness :
    (∃ k : ℤ, Sizing.round_step_up 123 50 = k * 50)
    ∧ (123 : ℝ) ≤ Sizing.round_step_up 123 50
    ∧ (∀ m : ℤ, (123 : ℝ) ≤ m * 50 → Sizing.round_step_up 123 50 ≤ m * 50)
    ∧ (∃ k : ℤ, Sizing.round_step_down 123 50 = k * 50)
    ∧ Sizing.round_step_down 123 50 ≤ 123
    ∧ (∀ m : ℤ, (m : ℝ) * 50 ≤ 123 → (m : ℝ) * 50 ≤ Sizing.round_step_down 123 50) :=
  C9_round_step_amended 123 50 (by norm_num)

/-- C9 counterexample: `round_step_down` is not floored at one `step`:
`round_step_down 10 50 = 0`, strictly below the positive step `50`. -/
theorem C9_counterexample :
    Sizing.round_step_down 10 50 = 0 ∧ Sizing.round_step_down 10 50 < 50 := by
  have hfloor : ⌊(10 : ℝ) / 50⌋ = 0 := by
    rw [Int.floor_eq_zero_iff]
    constructor <;> norm_num
  constructor
  · rw [Sizing.round_step_down, hfloor]
    norm_num
  · rw [Sizing.round_step_down, hfloor]
    norm_num

section DiameterClaims

/-- C4 (confirmed): `calc_circular_diameter` fails exactly when `Q ≤ 0` or
`Δp ≤ 0`; on positive inputs it returns
`1000·(C·Q^1.9/Δp)^0.199` with `C = 3.295e-10`, non-decreasing in `Q` and
non-increasing in `Δp`. -/
theorem C4_equivalent_diameter :
    (∀ q dp : ℝ, Sizing.calc_circular_diameter q dp = none ↔ q ≤ 0 ∨ dp ≤ 0)
    ∧ (∀ q dp : ℝ, 0 < q → 0 < dp →
        Sizing.calc_circular_diameter q dp = some (Sizing.D_formula q dp))
    ∧ (∀ q1 q2 dp : ℝ, 0 < q1 → q1 ≤ q2 → 0 < dp →
        Sizing.D_formula q1 dp ≤ Sizing.D_formula q2 dp)
    ∧ (∀ q dp1 dp2 : ℝ, 0 < q → 0 < dp1 → dp1 ≤ dp2 →
        Sizing.D_formula q dp2 ≤ Sizing.D_formula q dp1) := by
  refine ⟨?_, ?_, ?_, ?_⟩
  · intro q dp
    rw [Sizing.calc_circular_diameter]
    split_ifs with h1 h2
    · simp [h1]
    · simp [h2]
    · simp [h1, h2]
  · intro q dp hq hdp
    rw [Sizing.calc_circular_diameter, if_neg (not_le.mpr hq), if_neg (not_le.mpr hdp)]
  · intro q1 q2 dp hq1 hq hdp
    rw [Sizing.D_formula, Sizing.D_formula]
    have hq2 : 0 < q2 := lt_of_lt_of_le hq1 hq
    gcongr
  · intro q dp1 dp2 hq hdp1 hdp
    rw [Sizing.D_formula, Sizing.D_formula]
    have hdp2 : 0 < dp2 := lt_of_lt_of_le hdp1 hdp
    gcongr

/-- C4 witness: failure at `Q = -1`, success and both monotonicity
directions at concrete positive inputs. -/
theorem C4_equivalent_diameter_witness :
    Sizing.calc_circular_diameter (-1) 1 = none
    ∧ Sizing.calc_circular_diameter 1 1 = some (Sizing.D_formula 1 1)
    ∧ Sizing.D_formula 1 1 ≤ Sizing.D_formula 2 1
    ∧ Sizing.D_formula 1 2 ≤ Sizing.D_formula 1 1 :=
  ⟨(C4_equivalent_diameter.1 (-1) 1).mpr (Or.inl (by norm_num)),
   C4_equivalent_diameter.2.1 1 1 (by norm_num) (by norm_num),
   C4_equivalent_diameter.2.2.1 1 2 1 (by norm_num) (by norm_num) (by norm_num),
   C4_equivalent_diameter.2.2.2 1 1 2 (by norm_num) (by norm_num) (by norm_num)⟩

end DiameterClaims

section SizeRectClaims

lemma a_theo_pos {D1 r : ℝ} (hD : 0 < D1) (hr : 0 < r) : 0 < Sizing.a_theo D1 r := by
  rw [Sizing.a_theo]
  have h1 : (0 : ℝ) < (1 + r) ^ (0.25 : ℝ) := Real.rpow_pos_of_pos (by linarith) _
  have h2 : (0 : ℝ) < r ^ (0.625 : ℝ) := Real.rpow_pos_of_pos hr _
  positivity

lemma b_theo_pos {D1 r : ℝ} (hD : 0 < D1) (hr : 0 < r) : 0 < Sizing.b_theo D1 r :=
  mul_pos hr (a_theo_pos hD hr)

lemma theo_small_pos {D1 r : ℝ} (hD : 0 < D1) (hr : 0 < r) : 0 < Sizing.theo_small D1 r :=
  lt_min (a_theo_pos hD hr) (b_theo_pos hD hr)

lemma round_step_up_ge_step {x step : ℝ} (hx : 0 < x) (hs : 0 < step) :
    step ≤ Sizing.round_step_up x step := by
  rw [Sizing.round_step_up]
  have h1 : (0 : ℤ) < ⌈x / step⌉ := Int.ceil_pos.mpr (div_pos hx hs)
  have h2 : (1 : ℝ) ≤ (⌈x / step⌉ : ℝ) := by exact_mod_cast h1
  calc step = 1 * step := (one_mul step).symm
  _ ≤ (⌈x / step⌉ : ℝ) * step := mul_le_mul_of_nonneg_right h2 hs.le

lemma small_up_pos {D1 r step : ℝ} (hD : 0 < D1) (hr : 0 < r) (hs : 0 < step) :
    0 < Sizing.small_up D1 r step :=
  lt_of_lt_of_le hs (round_step_up_ge_step (theo_small_pos hD hr) hs)

lemma big_down_pos {D1 r step : ℝ} (hs : 0 < step) : 0 < Sizing.big_down D1 r step :=
  lt_of_lt_of_le hs (le_max_right _ _)

lemma a_up_pos {D1 r step : ℝ} (hD : 0 < D1) (hr : 0 < r) (hs : 0 < step) :
    0 < Sizing.a_up D1 r step :=
  lt_of_lt_of_le hs (round_step_up_ge_step (a_theo_pos hD hr) hs)

lemma b_up_pos {D1 r step : ℝ} (hD : 0 < D1) (hr : 0 < r) (hs : 0 < step) :
    0 < Sizing.b_up D1 r step :=
  lt_of_lt_of_le hs (round_step_up_ge_step (b_theo_pos hD hr) hs)

lemma rect_equiv_diameter_of_pos {a b : ℝ} (ha : 0 < a) (hb : 0 < b) :
    Sizing.rect_equiv_diameter a b = some (Sizing.rect_De a b) := by
  rw [Sizing.rect_equiv_diameter, if_neg]
  rintro (h | h) <;> linarith

lemma rect_De_max_min (a b : ℝ) : Sizing.rect_De (max a b) (min a b) = Sizing.rect_De a b := by
  rcases le_total a b with h | h
  · rw [max_eq_right h, min_eq_left h, Sizing.rect_De, Sizing.rect_De, mul_comm b a, add_comm b a]
  · rw [max_eq_left h, min_eq_right h]

lemma exists_mul_max {a b step : ℝ} (ha : ∃ m : ℤ, a = m * step) (hb : ∃ m : ℤ, b = m * step) :
    ∃ m : ℤ, max a b = m * step := by
  rcases le_total a b with h | h
  · rw [max_eq_right h]; exact hb
  · rw [max_eq_left h]; exact ha

lemma exists_mul_min {a b step : ℝ} (ha : ∃ m : ℤ, a = m * step) (hb : ∃ m : ℤ, b = m * step) :
    ∃ m : ℤ, min a b = m * step := by
  rcases le_total a b with h | h
  · rw [min_eq_left h]; exact ha
  · rw [min_eq_right h]; exact hb

lemma small_up_mult (D1 r step : ℝ) : ∃ m : ℤ, Sizing.small_up D1 r step = m * step :=
  ⟨⌈Sizing.theo_small D1 r / step⌉, rfl⟩

lemma big_down_mult (D1 r step : ℝ) : ∃ m : ℤ, Sizing.big_down D1 r step = m * step := by
  apply exists_mul_max ⟨⌊Sizing.theo_big D1 r / step⌋, rfl⟩ ⟨1, by push_cast; ring⟩

lemma a_up_mult (D1 r step : ℝ) : ∃ m : ℤ, Sizing.a_up D1 r step = m * step :=
  ⟨⌈Sizing.a_theo D1 r / step⌉, rfl⟩

lemma b_up_mult (D1 r step : ℝ) : ∃ m : ℤ, Sizing.b_up D1 r step = m * step :=
  ⟨⌈Sizing.b_theo D1 r / step⌉, rfl⟩

/-- C3 (confirmed): on valid inputs (`D1 > 0`, `r > 0`, `step > 0`)
`size_rect_from_D1` succeeds; candidate (i) — smaller theoretical side
rounded up, larger rounded down (floored at one step) — is returned
exactly when its equivalent diameter `De1` reaches the target, else
candidate (ii) — both sides rounded up; all candidate sides are exact
integer multiples of `step`; the returned pair is ordered `big ≥ small`;
and each candidate pair round-trips through `rect_equiv_diameter` to its
reported equivalent diameter, so whenever candidate (i) is chosen the
returned pair's equivalent diameter is `De1 ≥ D1`. -/
theorem C3_size_rect_from_D1 (D1 r step : ℝ) (hD : 0 < D1) (hr : 0 < r) (hs : 0 < step) :
    Sizing.size_rect_from_D1 D1 r step =
      some (if D1 ≤ Sizing.De1 D1 r step then
              (max (Sizing.small_up D1 r step) (Sizing.big_down D1 r step),
               min (Sizing.small_up D1 r step) (Sizing.big_down D1 r step),
               Sizing.De1 D1 r step, Sizing.theo_big D1 r, Sizing.theo_small D1 r)
            else
              (max (Sizing.a_up D1 r step) (Sizing.b_up D1 r step),
               min (Sizing.a_up D1 r step) (Sizing.b_up D1 r step),
               Sizing.De2 D1 r step, Sizing.theo_big D1 r, Sizing.theo_small D1 r))
    ∧ (∃ m : ℤ, max (Sizing.small_up D1 r step) (Sizing.big_down D1 r step) = m * step)
    ∧ (∃ m : ℤ, min (Sizing.small_up D1 r step) (Sizing.big_down D1 r step) = m * step)
    ∧ (∃ m : ℤ, max (Sizing.a_up D1 r step) (Sizing.b_up D1 r step) = m * step)
    ∧ (∃ m : ℤ, min (Sizing.a_up D1 r step) (Sizing.b_up D1 r step) = m * step)
    ∧ min (Sizing.small_up D1 r step) (Sizing.big_down D1 r step)
        ≤ max (Sizing.small_up D1 r step) (Sizing.big_down D1 r step)
    ∧ min (Sizing.a_up D1 r step) (Sizing.b_up D1 r step)
        ≤ max (Sizing.a_up D1 r step) (Sizing.b_up D1 r step)
    ∧ Sizing.rect_equiv_diameter
        (max (Sizing.small_up D1 r step) (Sizing.big_down D1 r step))
        (min (Sizing.small_up D1 r step) (Sizing.big_down D1 r step))
        = some (Sizing.De1 D1 r step)
    ∧ Sizing.rect_equiv_diameter
        (max (Sizing.a_up D1 r step) (Sizing.b_up D1 r step))
        (min (Sizing.a_up D1 r step) (Sizing.b_up D1 r step))
        = some (Sizing.De2 D1 r step) := by
  have hsu := @small_up_pos D1 r step hD hr hs
  have hbd := @big_down_pos D1 r step hs
  have hau := @a_up_pos D1 r step hD hr hs
  have hbu := @b_up_pos D1 r step hD hr hs
  refine ⟨?_, exists_mul_max (small_up_mult _ _ _) (big_down_mult _ _ _),
    exists_mul_min (small_up_mult _ _ _) (big_down_mult _ _ _),
    exists_mul_max (a_up_mult _ _ _) (b_up_mult _ _ _),
    exists_mul_min (a_up_mult _ _ _) (b_up_mult _ _ _),
    min_le_max, min_le_max, ?_, ?_⟩
  · rw [Sizing.size_rect_from_D1, if_neg (not_le.mpr hD), if_neg (not_le.mpr hr),
      rect_equiv_diameter_of_pos hsu hbd, rect_equiv_diameter_of_pos hau hbu]
    rw [Sizing.De1, Sizing.De2]
    rcases le_or_lt D1 (Sizing.rect_De (Sizing.small_up D1 r step) (Sizing.big_down D1 r step)) with h | h
    · simp only [if_pos h]
    · simp only [if_neg (not_le.mpr h)]
  · rw [rect_equiv_diameter_of_pos (lt_max_of_lt_left hsu) (lt_min_iff.mpr ⟨hsu, hbd⟩),
      rect_De_max_min, Sizing.De1]
  · rw [rect_equiv_diameter_of_pos (lt_max_of_lt_left hau) (lt_min_iff.mpr ⟨hau, hbu⟩),
      rect_De_max_min, Sizing.De2]

/-- C3 witness: the theorem applied at `D1 = 500`, `r = 2`, `step = 50`. -/
theorem C3_size_rect_from_D1_witness :
    Sizing.size_rect_from_D1 500 2 50 =
      some (if (500 : ℝ) ≤ Sizing.De1 500 2 50 then
              (max (Sizing.small_up 500 2 50) (Sizing.big_down 500 2 50),
               min (Sizing.small_up 500 2 50) (Sizing.big_down 500 2 50),
               Sizing.De1 500 2 50, Sizing.theo_big 500 2, Sizing.theo_small 500 2)
            else
              (max (Sizing.a_up 500 2 50) (Sizing.b_up 500 2 50),
               min (Sizing.a_up 500 2 50) (Sizing.b_up 500 2 50),
               Sizing.De2 500 2 50, Sizing.theo_big 500 2, Sizing.theo_small 500 2))
    ∧ (∃ m : ℤ, max (Sizing.small_up 500 2 50) (Sizing.big_down 500 2 50) = m * 50)
    ∧ (∃ m : ℤ, min (Sizing.small_up 500 2 50) (Sizing.big_down 500 2 50) = m * 50)
    ∧ (∃ m : ℤ, max (Sizing.a_up 500 2 50) (Sizing.b_up 500 2 50) = m * 50)
    ∧ (∃ m : ℤ, min (Sizing.a_up 500 2 50) (Sizing.b_up 500 2 50) = m * 50)
    ∧ min (Sizing.small_up 500 2 50) (Sizing.big_down 500 2 50)
        ≤ max (Sizing.small_up 500 2 50) (Sizing.big_down 500 2 50)
    ∧ min (Sizing.a_up 500 2 50) (Sizing.b_up 500 2 50)
        ≤ max (Sizing.a_up 500 2 50) (Sizing.b_up 500 2 50)
    ∧ Sizing.rect_equiv_diameter
        (max (Sizing.small_up 500 2 50) (Sizing.big_down 500 2 50))
        (min (Sizing.small_up 500 2 50) (Sizing.big_down 500 2 50))
        = some (Sizing.De1 500 2 50)
    ∧ Sizing.rect_equiv_diameter
        (max (Sizing.a_up 500 2 50) (Sizing.b_up 500 2 50))
        (min (Sizing.a_up 500 2 50) (Sizing.b_up 500 2 50))
        = some (Sizing.De2 500 2 50) :=
  C3_size_rect_from_D1 500 2 50 (by norm_num) (by norm_num) (by norm_num)

end SizeRectClaims

section DeletePointClaims

/-- C10 (confirmed): after `delete_point` removes any in-range point, every
remaining point is tagged by its position — the first point `'inlet'`,
every other `'outlet'` — so at most one inlet exists and it is the first
element. -/
theorem C10_delete_point_retags (pts : List RouterPalette.PPoint) (idx : Nat)
    (h : idx < pts.length) :
    ∀ i (hi : i < (RouterPalette.delete_point pts idx).length),
      ((RouterPalette.delete_point pts idx).get ⟨i, hi⟩).ptype =
        if i = 0 then RouterPalette.PType.inlet else RouterPalette.PType.outlet := by
  intro i hi
  simp only [RouterPalette.delete_point, if_pos h, RouterPalette.retag,
    List.get_eq_getElem, List.getElem_mapIdx]

/-- C10 witness: deleting the inlet (index 0) from a three-point palette;
the surviving point at position 0 carries the `'inlet'` tag. -/
theorem C10_delete_point_retags_witness :
    ((RouterPalette.delete_point
        [⟨0, 0, RouterPalette.PType.inlet⟩, ⟨1, 1, RouterPalette.PType.outlet⟩,
         ⟨2, 2, RouterPalette.PType.outlet⟩] 0).get ⟨0, by decide⟩).ptype =
        if 0 = 0 then RouterPalette.PType.inlet else RouterPalette.PType.outlet :=
  C10_delete_point_retags _ 0 (by norm_num) 0 (by decide)

end DeletePointClaims

section SteinerClaims

/-- C5 counterexample: on terminals inlet `(0,0)`, outlets `(4,0)`, `(4,3)`
the router records no Steiner node at all — `(4,0)` is one of the input
terminals, and every Hanan candidate already in the point set is skipped,
so it is never "discovered" as a Steiner point. -/
theorem C5_counterexample :
    (Router.auto_route_and_draw [((0 : ℤ), (0 : ℤ)), (4, 0), (4, 3)]).steiner_nodes = []
    ∧ ((4 : ℤ), (0 : ℤ)) ∈ [((0 : ℤ), (0 : ℤ)), (4, 0), (4, 3)]
    ∧ (4, 0) ∉ (Router.auto_route_and_draw
        [((0 : ℤ), (0 : ℤ)), (4, 0), (4, 3)]).steiner_nodes := by
  decide

/-- C5 (amended): on terminals inlet `(0,0)`, outlets `(4,0)` and `(4,3)`,
the routed network consists of the horizontal run `(0,0)–(4,0)` and the
vertical run `(4,0)–(4,3)`, of total Manhattan length `7 ≤ 14`; the
iterated 1-Steiner phase adds no auxiliary point (the junction `(4,0)`
of the optimal tree is already a terminal), and the point set returned
is exactly the terminal set. -/
theorem C5_route_length :
    (Router.auto_route_and_draw [((0 : ℤ), (0 : ℤ)), (4, 0), (4, 3)]).ducts =
      [⟨Router.Orient.H, 0, 0, 4⟩, ⟨Router.Orient.V, 4, 0, 3⟩]
    ∧ Router.total_length
        (Router.auto_route_and_draw [((0 : ℤ), (0 : ℤ)), (4, 0), (4, 3)]).ducts = 7
    ∧ Router.total_length
        (Router.auto_route_and_draw [((0 : ℤ), (0 : ℤ)), (4, 0), (4, 3)]).ducts ≤ 14
    ∧ (Router.auto_route_and_draw [((0 : ℤ), (0 : ℤ)), (4, 0), (4, 3)]).P =
        [(0, 0), (4, 0), (4, 3)]
    ∧ (Router.auto_route_and_draw [((0 : ℤ), (0 : ℤ)), (4, 0), (4, 3)]).steiner_nodes = [] := by
  decide

end SteinerClaims

section BuildAtomicityClaims

/-- C2 counterexample: a build requested with a non-positive inlet flow (an
incomplete topology in the claim's sense) aborts with the error reported,
but the previously built segment set is *not* left unchanged: the source
runs `self.segments.clear()` before the inlet-flow check, so the prior
network `[⟨0,0,1,0,100,false⟩]` is replaced by the empty list. -/
theorem C2_counterexample :
    RoomDrawer.draw_duct_network
        [⟨0, 0, RoomDrawer.AKind.inlet, 0⟩, ⟨2, 1, RoomDrawer.AKind.outlet, 100⟩]
        [⟨0, 0, 1, 0, 100, false⟩] 1 2 =
      ⟨[], some RoomDrawer.BuildError.nonPositiveInletFlow, false⟩
    ∧ ([] : List RoomDrawer.BSeg) ≠ [⟨0, 0, 1, 0, 100, false⟩] := by
  refine ⟨by with_unfolding_all decide, by decide⟩

/-- C2 (amended): every incomplete-topology build aborts with the error
reported and produces no new network; the prior segment set survives
exactly in the fewer-than-two-points case (which covers every reachable
no-inlet and zero-outlet palette state, since the palette tags the first
placed point as the inlet and all later ones as outlets), while with two
or more points a failed check (first point not an inlet, non-positive
inlet flow, or no outlet among the remaining points) leaves the segment
set cleared. -/
theorem C2_build_abort (points : List RoomDrawer.AirPoint) (prev : List RoomDrawer.BSeg)
    (dp r : ℚ) :
    (points.length < 2 →
      RoomDrawer.draw_duct_network points prev dp r =
        ⟨prev, some RoomDrawer.BuildError.tooFewPoints, false⟩)
    ∧ (2 ≤ points.length → (points.headD default).kind ≠ RoomDrawer.AKind.inlet →
      RoomDrawer.draw_duct_network points prev dp r =
        ⟨[], some RoomDrawer.BuildError.firstNotInlet, false⟩)
    ∧ (2 ≤ points.length → (points.headD default).kind = RoomDrawer.AKind.inlet →
      (points.headD default).flow ≤ 0 →
      RoomDrawer.draw_duct_network points prev dp r =
        ⟨[], some RoomDrawer.BuildError.nonPositiveInletFlow, false⟩)
    ∧ (2 ≤ points.length → (points.headD default).kind = RoomDrawer.AKind.inlet →
      0 < (points.headD default).flow →
      points.tail.filter (fun p => decide (p.kind = RoomDrawer.AKind.outlet)) = [] →
      RoomDrawer.draw_duct_network points prev dp r =
        ⟨[], some RoomDrawer.BuildError.noOutlets, false⟩) := by
  refine ⟨?_, ?_, ?_, ?_⟩
  · intro h
    rw [RoomDrawer.draw_duct_network, if_pos h]
  · intro h hk
    rw [RoomDrawer.draw_duct_network, if_neg (not_lt.mpr h), if_pos hk]
  · intro h hk hf
    rw [RoomDrawer.draw_duct_network, if_neg (not_lt.mpr h)]
    rw [if_neg (fun hne => hne hk), if_pos hf]
  · intro h hk hf ho
    rw [RoomDrawer.draw_duct_network, if_neg (not_lt.mpr h)]
    rw [if_neg (fun hne => hne hk), if_neg (not_le.mpr hf), if_pos ho]

/-- C2 witness: the fewer-than-two-points abort keeps the prior network, at
a concrete one-point palette. -/
theorem C2_build_abort_witness :
    RoomDrawer.draw_duct_network [⟨0, 0, RoomDrawer.AKind.inlet, 100⟩]
        [⟨0, 0, 1, 0, 100, false⟩] 1 2 =
      ⟨[⟨0, 0, 1, 0, 100, false⟩], some RoomDrawer.BuildError.tooFewPoints, false⟩ :=
  (C2_build_abort [⟨0, 0, RoomDrawer.AKind.inlet, 100⟩] [⟨0, 0, 1, 0, 100, false⟩] 1 2).1
    (by decide)

end BuildAtomicityClaims

section BranchSkipClaims

/-- C8 counterexample: inlet `(0,0)` with flow 400, outlets `(2, 3.4)` with
flow 400 and `(4, 3)` with flow 0 form one right-side group anchored at
`y = 3`.  The distributor segment towards the second outlet carries the
remaining flow 0, so its sizing call fails — and the source's `continue`
then also skips the first outlet's vertical stub `(2,3)–(2,3.4)`, whose
own sizing (flow 400) would succeed.  The built network is only the spine
and the group riser: more than the single failing segment is omitted. -/
theorem C8_counterexample :
    (RoomDrawer.draw_duct_network
        [⟨0, 0, RoomDrawer.AKind.inlet, 400⟩, ⟨2, 17/5, RoomDrawer.AKind.outlet, 400⟩,
         ⟨4, 3, RoomDrawer.AKind.outlet, 0⟩] [] 1 2).segments =
      [⟨0, 0, 2, 0, 400, false⟩, ⟨2, 0, 2, 3, 400, true⟩]
    ∧ (⟨2, 3, 2, 17/5, 400, true⟩ : RoomDrawer.BSeg) ∉
      (RoomDrawer.draw_duct_network
        [⟨0, 0, RoomDrawer.AKind.inlet, 400⟩, ⟨2, 17/5, RoomDrawer.AKind.outlet, 400⟩,
         ⟨4, 3, RoomDrawer.AKind.outlet, 0⟩] [] 1 2).segments
    ∧ RoomDrawer.sizing_ok 1 2 400 = true := by
  refine ⟨by with_unfolding_all decide, by with_unfolding_all decide, by with_unfolding_all decide⟩

/-- C8 (amended): inside a multi-outlet group, a failed sizing call for the
horizontal distributor at a non-final outlet (`remaining flow ≤ 0`, or
non-positive `dp`/`r`) skips not only that distributor segment but also
that outlet's vertical stub; when the distributor sizing succeeds, the
distributor and (for an off-axis outlet with positive flow) the stub are
both produced.  Elsewhere a failed sizing call skips exactly its own
segment. -/
theorem C8_branch_skip (dp r group_y : ℚ) (gs : List RoomDrawer.AirPoint) (i : Nat)
    (ot : RoomDrawer.AirPoint) (hflow : 0 < ot.flow) (hi : i < gs.length - 1) :
    (RoomDrawer.sizing_ok dp r (RoomDrawer.branch_tail_flow gs i) = false →
      RoomDrawer.branch_pieces dp r group_y gs i ot = [])
    ∧ (RoomDrawer.sizing_ok dp r (RoomDrawer.branch_tail_flow gs i) = true →
      RoomDrawer.branch_pieces dp r group_y gs i ot =
        ⟨(gs.getD i default).mx, group_y, (gs.getD (i + 1) default).mx, group_y,
          RoomDrawer.branch_tail_flow gs i, false⟩ ::
        (if RoomDrawer.eps < RoomDrawer.rabs (group_y - ot.my) then
          (if RoomDrawer.sizing_ok dp r ot.flow = true then
            [⟨ot.mx, group_y, ot.mx, ot.my, ot.flow, true⟩] else [])
         else [])) := by
  constructor
  · intro hfail
    rw [RoomDrawer.branch_pieces, if_neg (not_le.mpr hflow), if_pos hi]
    simp only [hfail, Bool.false_eq_true, if_false]
  · intro hok
    rw [RoomDrawer.branch_pieces, if_neg (not_le.mpr hflow), if_pos hi]
    simp only [hok, if_true]

/-- C8 witness: the amended behaviour at the counterexample's group — the
failing distributor (remaining flow 0) erases the whole per-outlet
contribution of the first outlet. -/
theorem C8_branch_skip_witness :
    RoomDrawer.branch_pieces 1 2 3
      [⟨2, 17/5, RoomDrawer.AKind.outlet, 400⟩, ⟨4, 3, RoomDrawer.AKind.outlet, 0⟩] 0
      ⟨2, 17/5, RoomDrawer.AKind.outlet, 400⟩ = [] :=
  (C8_branch_skip 1 2 3
      [⟨2, 17/5, RoomDrawer.AKind.outlet, 400⟩, ⟨4, 3, RoomDrawer.AKind.outlet, 0⟩] 0
      ⟨2, 17/5, RoomDrawer.AKind.outlet, 400⟩ (by norm_num) (by norm_num)).1
    (by with_unfolding_all decide)

end BranchSkipClaims

section SplitInheritClaims

/-- C7 counterexample: relocating the riser `(2,0)–(2,3)` (outlet terminal at
`(2,3)`) by `dx = 1` decomposes it into an L of two segments — but both
carry the original segment's cross-section `999 × 111` and diameter `777`
verbatim.  `999` is not a multiple of the 50 mm sizing step, so it cannot
be the output of a re-sizing call (`C3_size_rect_from_D1` shows every
sized side is an integer multiple of the step): the cross-section is
inherited, not recomputed. -/
theorem C7_counterexample :
    RoomDrawer.move_connected_segments [⟨2, 0, 2, 3, 999, 111, 300, true, 777⟩]
        [(2, 3)] 0 1 0 =
      [⟨3, 0, 2, 0, 999, 111, 300, false, 777⟩, ⟨2, 0, 2, 3, 999, 111, 300, true, 777⟩]
    ∧ ¬ (50 : ℤ) ∣ 999 := by
  refine ⟨by with_unfolding_all decide, by decide⟩

/-- C7 (amended): each of the two segments produced by the L-decomposition
inherits the original segment's cross-section, conveyed flow and circular
diameter unchanged; no re-sizing is performed.  (Both halves carry the
original's flow, so the inherited cross-section agrees with re-sizing
exactly when the original's cross-section matched its own flow.) -/
theorem C7_split_inherits (s : RoomDrawer.RSeg) (pt1 pt2 : ℚ × ℚ) (dx : ℚ) :
    ∀ t ∈ RoomDrawer.split_new_segs s pt1 pt2 dx,
      t.duct_w = s.duct_w ∧ t.duct_h = s.duct_h ∧ t.flow = s.flow ∧ t.circ = s.circ := by
  intro t ht
  have hmem : ∀ (c d : Prop) (ic : Decidable c) (id_ : Decidable d) (a b : RoomDrawer.RSeg),
      t ∈ (if c then [a] else []) ++ (if d then [b] else []) → t = a ∨ t = b := by
    intro c d ic id_ a b hm
    rcases List.mem_append.mp hm with hm | hm
    · left
      split_ifs at hm <;> simp_all
    · right
      split_ifs at hm <;> simp_all
  rw [RoomDrawer.split_new_segs] at ht
  split_ifs at ht with hdx
  · rcases hmem _ _ _ _ _ _ ht with h1 | h1 <;> subst h1 <;> exact ⟨rfl, rfl, rfl, rfl⟩
  · rcases hmem _ _ _ _ _ _ ht with h1 | h1 <;> subst h1 <;> exact ⟨rfl, rfl, rfl, rfl⟩

/-- C7 witness: the inheritance at the counterexample's horizontal piece. -/
theorem C7_split_inherits_witness :
    (⟨3, 0, 2, 0, 999, 111, 300, false, 777⟩ : RoomDrawer.RSeg).duct_w =
        (⟨2, 0, 2, 3, 999, 111, 300, true, 777⟩ : RoomDrawer.RSeg).duct_w
    ∧ (⟨3, 0, 2, 0, 999, 111, 300, false, 777⟩ : RoomDrawer.RSeg).duct_h =
        (⟨2, 0, 2, 3, 999, 111, 300, true, 777⟩ : RoomDrawer.RSeg).duct_h
    ∧ (⟨3, 0, 2, 0, 999, 111, 300, false, 777⟩ : RoomDrawer.RSeg).flow =
        (⟨2, 0, 2, 3, 999, 111, 300, true, 777⟩ : RoomDrawer.RSeg).flow
    ∧ (⟨3, 0, 2, 0, 999, 111, 300, false, 777⟩ : RoomDrawer.RSeg).circ =
        (⟨2, 0, 2, 3, 999, 111, 300, true, 777⟩ : RoomDrawer.RSeg).circ :=
  C7_split_inherits ⟨2, 0, 2, 3, 999, 111, 300, true, 777⟩ (3, 0) (2, 3) 1
    ⟨3, 0, 2, 0, 999, 111, 300, false, 777⟩ (by with_unfolding_all decide)

end SplitInheritClaims

section RelocatorClaims

lemma mem_bfs_go (segs : List RoomDrawer.RSeg) (a : Nat) :
    ∀ (fuel : Nat) (q v : List Nat), a ∈ v → a ∈ RoomDrawer.bfs_go segs fuel q v := by
  intro fuel
  induction fuel with
  | zero =>
    intro q v h
    rw [RoomDrawer.bfs_go]
    exact h
  | succ n ih =>
    intro q v h
    cases q with
    | nil =>
      rw [RoomDrawer.bfs_go]
      exact h
    | cons c rest =>
      rw [RoomDrawer.bfs_go]
      exact ih _ _ (List.mem_append.mpr (Or.inl h))

lemma base_mem_connected (segs : List RoomDrawer.RSeg) (base : Nat) :
    base ∈ RoomDrawer.connected_indices segs base := by
  rw [RoomDrawer.connected_indices]
  exact mem_bfs_go segs base _ _ _ (List.mem_singleton.mpr rfl)

lemma mem_splits_of {segs : List RoomDrawer.RSeg} {points : List (ℚ × ℚ)} {base : Nat}
    {dx dy : ℚ} {i : Nat} {p1 p2 : ℚ × ℚ}
    (hconn : i ∈ RoomDrawer.connected_indices segs base)
    (hc : RoomDrawer.classify points dx dy (segs.getD i default) =
      RoomDrawer.MoveAction.split p1 p2) :
    (i, p1, p2) ∈ RoomDrawer.splits_of segs points base dx dy := by
  rw [RoomDrawer.splits_of]
  exact List.mem_filterMap.mpr ⟨i, hconn, by rw [hc]⟩

lemma move_decomposition {segs : List RoomDrawer.RSeg} {points : List (ℚ × ℚ)} {base : Nat}
    {dx dy : ℚ} {i : Nat} {p1 p2 : ℚ × ℚ}
    (hmem : (i, p1, p2) ∈ RoomDrawer.splits_of segs points base dx dy) :
    ∃ pre post, RoomDrawer.move_connected_segments segs points base dx dy =
      pre ++ RoomDrawer.split_new_segs (segs.getD i default) p1 p2 dx ++ post := by
  obtain ⟨l1, l2, hsp⟩ := List.append_of_mem hmem
  refine ⟨RoomDrawer.kept_segments segs points base dx dy ++
      l1.flatMap (fun t => RoomDrawer.split_new_segs (segs.getD t.1 default) t.2.1 t.2.2 dx),
    l2.flatMap (fun t => RoomDrawer.split_new_segs (segs.getD t.1 default) t.2.1 t.2.2 dx), ?_⟩
  rw [RoomDrawer.move_connected_segments, hsp, List.flatMap_append, List.flatMap_cons]
  simp [List.append_assoc]

lemma classify_fix1 (points : List (ℚ × ℚ)) (dx dy : ℚ) (s : RoomDrawer.RSeg)
    (h1 : RoomDrawer.is_attached_to_point points s.mx1 s.my1 = true)
    (h2 : RoomDrawer.is_attached_to_point points s.mx2 s.my2 = false)
    (hd1 : RoomDrawer.eps < RoomDrawer.rabs (s.mx1 - (s.mx2 + dx)))
    (hd2 : RoomDrawer.eps < RoomDrawer.rabs (s.my1 - (s.my2 + dy))) :
    RoomDrawer.classify points dx dy s =
      RoomDrawer.MoveAction.split (s.mx1, s.my1) (s.mx2 + dx, s.my2 + dy) := by
  rw [RoomDrawer.classify]
  simp [h1, h2, hd1, hd2]

lemma classify_fix2 (points : List (ℚ × ℚ)) (dx dy : ℚ) (s : RoomDrawer.RSeg)
    (h1 : RoomDrawer.is_attached_to_point points s.mx1 s.my1 = false)
    (h2 : RoomDrawer.is_attached_to_point points s.mx2 s.my2 = true)
    (hd1 : RoomDrawer.eps < RoomDrawer.rabs (s.mx1 + dx - s.mx2))
    (hd2 : RoomDrawer.eps < RoomDrawer.rabs (s.my1 + dy - s.my2)) :
    RoomDrawer.classify points dx dy s =
      RoomDrawer.MoveAction.split (s.mx1 + dx, s.my1 + dy) (s.mx2, s.my2) := by
  rw [RoomDrawer.classify]
  simp [h1, h2, hd1, hd2]

lemma split_new_segs_x (s : RoomDrawer.RSeg) (pt1 pt2 : ℚ × ℚ) (dx : ℚ)
    (hdx : RoomDrawer.eps < RoomDrawer.rabs dx)
    (h1 : RoomDrawer.eps < RoomDrawer.rabs (pt1.1 - pt2.1))
    (h2 : RoomDrawer.eps < RoomDrawer.rabs (pt1.2 - pt2.2)) :
    RoomDrawer.split_new_segs s pt1 pt2 dx =
      [⟨pt1.1, pt1.2, pt2.1, pt1.2, s.duct_w, s.duct_h, s.flow, false, s.circ⟩,
       ⟨pt2.1, pt1.2, pt2.1, pt2.2, s.duct_w, s.duct_h, s.flow, true, s.circ⟩] := by
  rw [RoomDrawer.split_new_segs, if_pos hdx]
  dsimp only
  rw [if_pos h1, if_pos h2]
  rfl

lemma split_new_segs_y (s : RoomDrawer.RSeg) (pt1 pt2 : ℚ × ℚ) (dx : ℚ)
    (hdx : ¬ RoomDrawer.eps < RoomDrawer.rabs dx)
    (h1 : RoomDrawer.eps < RoomDrawer.rabs (pt1.2 - pt2.2))
    (h2 : RoomDrawer.eps < RoomDrawer.rabs (pt1.1 - pt2.1)) :
    RoomDrawer.split_new_segs s pt1 pt2 dx =
      [⟨pt1.1, pt1.2, pt1.1, pt2.2, s.duct_w, s.duct_h, s.flow, true, s.circ⟩,
       ⟨pt1.1, pt2.2, pt2.1, pt2.2, s.duct_w, s.duct_h, s.flow, false, s.circ⟩] := by
  rw [RoomDrawer.split_new_segs, if_neg hdx]
  dsimp only
  rw [if_pos h1, if_pos h2]
  rfl

end RelocatorClaims

section DragSplitClaims

/-- C6 (confirmed): when the dragged component contains a segment with
exactly one endpoint coincident with a terminal and the displacement
would make that segment non-orthogonal, `_move_connected_segments`
replaces it by exactly two new axis-aligned segments forming an L between
the unchanged fixed endpoint and the displaced endpoint, adjacent in the
stored order — horizontal piece first for an X displacement and vertical
piece first for a Y displacement, the joint lying on the unchanged
ordinate.  The four conjuncts cover endpoint 1 or endpoint 2 fixed, under
an X or a Y displacement.  (The source method never touches the
`self.points` terminal list, which the embedding reflects by the
function's type; the fixed endpoint's coordinates appear unchanged in
the replacement pair.) -/
theorem C6_drag_splits_into_L (segs : List RoomDrawer.RSeg) (points : List (ℚ × ℚ))
    (base : Nat) (dx dy : ℚ) (s : RoomDrawer.RSeg) (hgets : segs.getD base default = s) :
    (RoomDrawer.is_attached_to_point points s.mx1 s.my1 = true →
     RoomDrawer.is_attached_to_point points s.mx2 s.my2 = false →
     RoomDrawer.eps < RoomDrawer.rabs (s.mx1 - (s.mx2 + dx)) →
     RoomDrawer.eps < RoomDrawer.rabs (s.my1 - (s.my2 + dy)) →
     RoomDrawer.eps < RoomDrawer.rabs dx →
     ∃ pre post, RoomDrawer.move_connected_segments segs points base dx dy =
       pre ++ ⟨s.mx1, s.my1, s.mx2 + dx, s.my1, s.duct_w, s.duct_h, s.flow, false, s.circ⟩ ::
         ⟨s.mx2 + dx, s.my1, s.mx2 + dx, s.my2 + dy, s.duct_w, s.duct_h, s.flow, true, s.circ⟩ ::
         post)
    ∧ (RoomDrawer.is_attached_to_point points s.mx1 s.my1 = false →
     RoomDrawer.is_attached_to_point points s.mx2 s.my2 = true →
     RoomDrawer.eps < RoomDrawer.rabs (s.mx1 + dx - s.mx2) →
     RoomDrawer.eps < RoomDrawer.rabs (s.my1 + dy - s.my2) →
     RoomDrawer.eps < RoomDrawer.rabs dx →
     ∃ pre post, RoomDrawer.move_connected_segments segs points base dx dy =
       pre ++ ⟨s.mx1 + dx, s.my1 + dy, s.mx2, s.my1 + dy, s.duct_w, s.duct_h, s.flow, false, s.circ⟩ ::
         ⟨s.mx2, s.my1 + dy, s.mx2, s.my2, s.duct_w, s.duct_h, s.flow, true, s.circ⟩ ::
         post)
    ∧ (RoomDrawer.is_attached_to_point points s.mx1 s.my1 = true →
     RoomDrawer.is_attached_to_point points s.mx2 s.my2 = false →
     RoomDrawer.eps < RoomDrawer.rabs (s.mx1 - (s.mx2 + dx)) →
     RoomDrawer.eps < RoomDrawer.rabs (s.my1 - (s.my2 + dy)) →
     ¬ RoomDrawer.eps < RoomDrawer.rabs dx →
     ∃ pre post, RoomDrawer.move_connected_segments segs points base dx dy =
       pre ++ ⟨s.mx1, s.my1, s.mx1, s.my2 + dy, s.duct_w, s.duct_h, s.flow, true, s.circ⟩ ::
         ⟨s.mx1, s.my2 + dy, s.mx2 + dx, s.my2 + dy, s.duct_w, s.duct_h, s.flow, false, s.circ⟩ ::
         post)
    ∧ (RoomDrawer.is_attached_to_point points s.mx1 s.my1 = false →
     RoomDrawer.is_attached_to_point points s.mx2 s.my2 = true →
     RoomDrawer.eps < RoomDrawer.rabs (s.mx1 + dx - s.mx2) →
     RoomDrawer.eps < RoomDrawer.rabs (s.my1 + dy - s.my2) →
     ¬ RoomDrawer.eps < RoomDrawer.rabs dx →
     ∃ pre post, RoomDrawer.move_connected_segments segs points base dx dy =
       pre ++ ⟨s.mx1 + dx, s.my1 + dy, s.mx1 + dx, s.my2, s.duct_w, s.duct_h, s.flow, true, s.circ⟩ ::
         ⟨s.mx1 + dx, s.my2, s.mx2, s.my2, s.duct_w, s.duct_h, s.flow, false, s.circ⟩ ::
         post) := by
  have hbase := base_mem_connected segs base
  refine ⟨?_, ?_, ?_, ?_⟩
  · intro h1 h2 hd1 hd2 hdx
    have hc := classify_fix1 points dx dy s h1 h2 hd1 hd2
    have hc2 : RoomDrawer.classify points dx dy (segs.getD base default) =
        RoomDrawer.MoveAction.split (s.mx1, s.my1) (s.mx2 + dx, s.my2 + dy) := by
      rw [hgets, hc]
    obtain ⟨pre, post, heq⟩ := move_decomposition (mem_splits_of hbase hc2)
    refine ⟨pre, post, ?_⟩
    rw [heq, hgets, split_new_segs_x s (s.mx1, s.my1) (s.mx2 + dx, s.my2 + dy) dx hdx hd1 hd2]
    simp [List.append_assoc]
  · intro h1 h2 hd1 hd2 hdx
    have hc := classify_fix2 points dx dy s h1 h2 hd1 hd2
    have hc2 : RoomDrawer.classify points dx dy (segs.getD base default) =
        RoomDrawer.MoveAction.split (s.mx1 + dx, s.my1 + dy) (s.mx2, s.my2) := by
      rw [hgets, hc]
    obtain ⟨pre, post, heq⟩ := move_decomposition (mem_splits_of hbase hc2)
    refine ⟨pre, post, ?_⟩
    rw [heq, hgets, split_new_segs_x s (s.mx1 + dx, s.my1 + dy) (s.mx2, s.my2) dx hdx hd1 hd2]
    simp [List.append_assoc]
  · intro h1 h2 hd1 hd2 hdx
    have hc := classify_fix1 points dx dy s h1 h2 hd1 hd2
    have hc2 : RoomDrawer.classify points dx dy (segs.getD base default) =
        RoomDrawer.MoveAction.split (s.mx1, s.my1) (s.mx2 + dx, s.my2 + dy) := by
      rw [hgets, hc]
    obtain ⟨pre, post, heq⟩ := move_decomposition (mem_splits_of hbase hc2)
    refine ⟨pre, post, ?_⟩
    rw [heq, hgets, split_new_segs_y s (s.mx1, s.my1) (s.mx2 + dx, s.my2 + dy) dx hdx hd2 hd1]
    simp [List.append_assoc]
  · intro h1 h2 hd1 hd2 hdx
    have hc := classify_fix2 points dx dy s h1 h2 hd1 hd2
    have hc2 : RoomDrawer.classify points dx dy (segs.getD base default) =
        RoomDrawer.MoveAction.split (s.mx1 + dx, s.my1 + dy) (s.mx2, s.my2) := by
      rw [hgets, hc]
    obtain ⟨pre, post, heq⟩ := move_decomposition (mem_splits_of hbase hc2)
    refine ⟨pre, post, ?_⟩
    rw [heq, hgets, split_new_segs_y s (s.mx1 + dx, s.my1 + dy) (s.mx2, s.my2) dx hdx hd2 hd1]
    simp [List.append_assoc]

/-- C6 witness: dragging the riser `(2,0)–(2,3)` of a spine-and-riser
network sideways by `dx = 1` (outlet terminal fixed at `(2,3)`, inlet at
`(0,0)`) yields the adjacent horizontal-then-vertical pair
`(3,0)–(2,0)`, `(2,0)–(2,3)` in the relocated segment list. -/
theorem C6_drag_splits_into_L_witness :
    ∃ pre post, RoomDrawer.move_connected_segments
        [⟨0, 0, 2, 0, 10, 10, 400, false, 1⟩, ⟨2, 0, 2, 3, 10, 10, 300, true, 1⟩]
        [(0, 0), (2, 3)] 1 1 0 =
      pre ++ (⟨2 + 1, 0 + 0, 2, 0 + 0, 10, 10, 300, false, 1⟩ : RoomDrawer.RSeg) ::
        (⟨2, 0 + 0, 2, 3, 10, 10, 300, true, 1⟩ : RoomDrawer.RSeg) :: post :=
  (C6_drag_splits_into_L
      [⟨0, 0, 2, 0, 10, 10, 400, false, 1⟩, ⟨2, 0, 2, 3, 10, 10, 300, true, 1⟩]
      [(0, 0), (2, 3)] 1 1 0 ⟨2, 0, 2, 3, 10, 10, 300, true, 1⟩
      (by with_unfolding_all decide)).2.1
    (by with_unfolding_all decide) (by with_unfolding_all decide)
    (by with_unfolding_all decide) (by with_unfolding_all decide)
    (by with_unfolding_all decide)

end DragSplitClaims

section SpineFlowHelpers

lemma rabs_eq_abs (x : ℚ) : RoomDrawer.rabs x = |x| := by
  rw [RoomDrawer.rabs]
  rcases lt_or_le x 0 with h | h
  · rw [if_pos h, abs_of_neg h]
  · rw [if_neg (not_lt.mpr h), abs_of_nonneg h]

lemma eps_pos : 0 < RoomDrawer.eps := by norm_num [RoomDrawer.eps]

lemma eps_lt_half : RoomDrawer.eps < 1 / 2 := by norm_num [RoomDrawer.eps]

lemma grid_lt_iff {a b : ℚ} (ha : RoomDrawer.on_half_grid a) (hb : RoomDrawer.on_half_grid b) :
    a < b ↔ a + RoomDrawer.eps < b := by
  obtain ⟨j, rfl⟩ := ha
  obtain ⟨k, rfl⟩ := hb
  constructor
  · intro h
    have hjk : j < k := by
      have := (div_lt_div_iff_of_pos_right (show (0:ℚ) < 2 by norm_num)).mp h
      exact_mod_cast this
    have hjk1 : (j : ℚ) + 1 ≤ (k : ℚ) := by exact_mod_cast hjk
    have := eps_lt_half
    linarith
  · intro h
    have := eps_pos
    linarith

lemma dict_insert_fresh {m : List (ℚ × ℚ)} {k : ℚ} (hk : k ∉ m.map Prod.fst) (v : ℚ) :
    RoomDrawer.dict_insert m k v = m ++ [(k, v)] := by
  rw [RoomDrawer.dict_insert, if_neg]
  intro hany
  rcases List.any_eq_true.mp hany with ⟨p, hp, hpk⟩
  exact hk (List.mem_map.mpr ⟨p, hp, of_decide_eq_true hpk⟩)

lemma dict_fold_eq (anchor : List RoomDrawer.AirPoint → ℚ) :
    ∀ (groups : List (List RoomDrawer.AirPoint)) (m0 : List (ℚ × ℚ)),
      (groups.map anchor).Nodup →
      (∀ g ∈ groups, anchor g ∉ m0.map Prod.fst) →
      groups.foldl (fun m g => RoomDrawer.dict_insert m (anchor g) (RoomDrawer.group_flow g)) m0 =
        m0 ++ groups.map (fun g => (anchor g, RoomDrawer.group_flow g)) := by
  intro groups
  induction groups with
  | nil => intro m0 _ _; simp
  | cons g gs ih =>
    intro m0 hnd hfresh
    have hnd' : anchor g ∉ gs.map anchor ∧ (gs.map anchor).Nodup := by
      rw [List.map_cons] at hnd
      exact List.nodup_cons.mp hnd
    rw [List.foldl_cons, dict_insert_fresh (hfresh g (List.mem_cons_self g gs)) _]
    rw [ih (m0 ++ [(anchor g, RoomDrawer.group_flow g)]) hnd'.2 ?_]
    · simp
    · intro g' hg'
      rw [List.map_append, List.mem_append]
      rintro (h | h)
      · exact hfresh g' (List.mem_cons_of_mem g hg') h
      · simp only [List.map_cons, List.map_nil, List.mem_singleton] at h
        exact hnd'.1 (h ▸ List.mem_map.mpr ⟨g', hg', rfl⟩)

lemma pairwise_zip_tail {α : Type} {R : α → α → Prop} :
    ∀ {l : List α}, l.Pairwise R → ∀ p ∈ l.zip l.tail, R p.1 p.2 := by
  intro l
  induction l with
  | nil => intro _ p hp; simp at hp
  | cons a t ih =>
    intro h p hp
    cases t with
    | nil => simp at hp
    | cons b t2 =>
      simp only [List.tail_cons, List.zip_cons_cons, List.mem_cons] at hp
      rcases hp with hp | hp
      · subst hp
        exact (List.pairwise_cons.mp h).1 b (List.mem_cons_self b t2)
      · exact ih (List.pairwise_cons.mp h).2 p hp

lemma mem_zip_tail {α : Type} :
    ∀ {l : List α} {a b : α}, (a, b) ∈ l.zip l.tail → a ∈ l ∧ b ∈ l := by
  intro l
  induction l with
  | nil => intro a b h; simp at h
  | cons x t ih =>
    intro a b h
    cases t with
    | nil => simp at h
    | cons y t2 =>
      simp only [List.tail_cons, List.zip_cons_cons, List.mem_cons] at h
      rcases h with h | h
      · obtain ⟨rfl, rfl⟩ := Prod.mk.injEq .. ▸ h
        constructor
        · exact List.mem_cons_self _ _
        · exact List.mem_cons_of_mem _ (List.mem_cons_self _ _)
      · obtain ⟨ha, hb⟩ := ih h
        exact ⟨List.mem_cons_of_mem _ ha, List.mem_cons_of_mem _ hb⟩

lemma mem_sorted_unique {l : List ℚ} {a : ℚ} : a ∈ RoomDrawer.sorted_unique l ↔ a ∈ l := by
  rw [RoomDrawer.sorted_unique, List.mem_insertionSort, List.mem_dedup]

lemma sorted_unique_pairwise_lt (l : List ℚ) :
    (RoomDrawer.sorted_unique l).Pairwise (fun a b => a < b) := by
  have hs : (RoomDrawer.sorted_unique l).Pairwise (fun a b : ℚ => a ≤ b) :=
    List.sorted_insertionSort (fun a b : ℚ => a ≤ b) l.dedup
  have hn : (RoomDrawer.sorted_unique l).Nodup :=
    ((List.perm_insertionSort (fun a b : ℚ => a ≤ b) l.dedup).nodup_iff).mpr (List.nodup_dedup l)
  exact (hs.and hn).imp fun h => lt_of_le_of_ne h.1 h.2

lemma sorted_unique_desc_pairwise_gt (l : List ℚ) :
    (RoomDrawer.sorted_unique_desc l).Pairwise (fun a b => b < a) := by
  rw [RoomDrawer.sorted_unique_desc, List.pairwise_reverse]
  exact sorted_unique_pairwise_lt l

lemma mem_sorted_unique_desc {l : List ℚ} {a : ℚ} :
    a ∈ RoomDrawer.sorted_unique_desc l ↔ a ∈ l := by
  rw [RoomDrawer.sorted_unique_desc, List.mem_reverse, mem_sorted_unique]

end SpineFlowHelpers

section SpineFlowHelpersB

lemma group_go_mem (tol : ℚ) :
    ∀ (rest cur : List RoomDrawer.AirPoint) (anchor : ℚ) (g : List RoomDrawer.AirPoint),
      g ∈ RoomDrawer.group_go tol cur anchor rest → ∀ p ∈ g, p ∈ cur ∨ p ∈ rest := by
  intro rest
  induction rest with
  | nil =>
    intro cur anchor g hg p hp
    rw [RoomDrawer.group_go] at hg
    rcases List.mem_singleton.mp hg with rfl
    exact Or.inl hp
  | cons q rest2 ih =>
    intro cur anchor g hg p hp
    rw [RoomDrawer.group_go] at hg
    split_ifs at hg with hc
    · rcases ih (cur ++ [q]) anchor g hg p hp with h | h
      · rcases List.mem_append.mp h with h | h
        · exact Or.inl h
        · exact Or.inr (List.mem_cons.mpr (Or.inl (List.mem_singleton.mp h)))
      · exact Or.inr (List.mem_cons_of_mem q h)
    · rcases List.mem_cons.mp hg with rfl | hg2
      · exact Or.inl hp
      · rcases ih [q] q.my g hg2 p hp with h | h
        · exact Or.inr (List.mem_cons.mpr (Or.inl (List.mem_singleton.mp h)))
        · exact Or.inr (List.mem_cons_of_mem q h)

lemma group_go_ne_nil (tol : ℚ) :
    ∀ (rest cur : List RoomDrawer.AirPoint) (anchor : ℚ) (g : List RoomDrawer.AirPoint),
      cur ≠ [] → g ∈ RoomDrawer.group_go tol cur anchor rest → g ≠ [] := by
  intro rest
  induction rest with
  | nil =>
    intro cur anchor g hcur hg
    rcases List.mem_singleton.mp (by rw [RoomDrawer.group_go] at hg; exact hg) with rfl
    exact hcur
  | cons q rest2 ih =>
    intro cur anchor g hcur hg
    rw [RoomDrawer.group_go] at hg
    split_ifs at hg with hc
    · exact ih (cur ++ [q]) anchor g (by simp) hg
    · rcases List.mem_cons.mp hg with rfl | hg2
      · exact hcur
      · exact ih [q] q.my g (by simp) hg2

lemma group_outlets_mem {l : List RoomDrawer.AirPoint} {tol : ℚ}
    {g : List RoomDrawer.AirPoint} (hg : g ∈ RoomDrawer.group_outlets_by_y l tol) :
    g ≠ [] ∧ ∀ p ∈ g, p ∈ l := by
  rw [RoomDrawer.group_outlets_by_y] at hg
  rcases hsort : RoomDrawer.sortByY l with _ | ⟨q, rest⟩
  · rw [hsort] at hg
    simp at hg
  · rw [hsort] at hg
    refine ⟨group_go_ne_nil tol rest [q] q.my g (by simp) hg, ?_⟩
    intro p hp
    have hmem : p ∈ [q] ∨ p ∈ rest := group_go_mem tol rest [q] q.my g hg p hp
    have hinsort : p ∈ RoomDrawer.sortByY l := by
      rw [hsort]
      rcases hmem with h | h
      · exact List.mem_cons.mpr (Or.inl (List.mem_singleton.mp h))
      · exact List.mem_cons_of_mem q h
    rw [RoomDrawer.sortByY, List.mem_insertionSort] at hinsort
    exact hinsort

lemma anchor_mem_right {g : List RoomDrawer.AirPoint} (hne : g ≠ []) :
    ∃ p ∈ g, RoomDrawer.group_first_x_right g = p.mx := by
  rw [RoomDrawer.group_first_x_right]
  have hsne : RoomDrawer.sortByX g ≠ [] := by
    intro h
    apply hne
    have hperm := List.perm_insertionSort (fun a b : RoomDrawer.AirPoint => a.mx ≤ b.mx) g
    rw [RoomDrawer.sortByX] at h
    rw [h] at hperm
    exact hperm.symm.eq_nil
  obtain ⟨q, t, hqt⟩ := List.exists_cons_of_ne_nil hsne
  refine ⟨q, ?_, ?_⟩
  · have hq : q ∈ RoomDrawer.sortByX g := by
      rw [hqt]
      exact List.mem_cons_self q t
    rw [RoomDrawer.sortByX, List.mem_insertionSort] at hq
    exact hq
  · rw [hqt]
    rfl

lemma anchor_mem_left {g : List RoomDrawer.AirPoint} (hne : g ≠ []) :
    ∃ p ∈ g, RoomDrawer.group_first_x_left g = p.mx := by
  rw [RoomDrawer.group_first_x_left]
  have hsne : RoomDrawer.sortByXDesc g ≠ [] := by
    intro h
    apply hne
    have hperm := List.perm_insertionSort (fun a b : RoomDrawer.AirPoint => b.mx ≤ a.mx) g
    rw [RoomDrawer.sortByXDesc] at h
    rw [h] at hperm
    exact hperm.symm.eq_nil
  obtain ⟨q, t, hqt⟩ := List.exists_cons_of_ne_nil hsne
  refine ⟨q, ?_, ?_⟩
  · have hq : q ∈ RoomDrawer.sortByXDesc g := by
      rw [hqt]
      exact List.mem_cons_self q t
    rw [RoomDrawer.sortByXDesc, List.mem_insertionSort] at hq
    exact hq
  · rw [hqt]
    rfl

lemma right_anchor_facts {inlet : RoomDrawer.AirPoint} {outlets : List RoomDrawer.AirPoint}
    (hgo : ∀ p ∈ outlets, RoomDrawer.on_half_grid p.mx)
    {g : List RoomDrawer.AirPoint} (hg : g ∈ RoomDrawer.right_groups inlet outlets) :
    inlet.mx + RoomDrawer.eps < RoomDrawer.group_first_x_right g
    ∧ RoomDrawer.on_half_grid (RoomDrawer.group_first_x_right g) := by
  obtain ⟨hne, hsub⟩ := group_outlets_mem (by rw [RoomDrawer.right_groups] at hg; exact hg)
  obtain ⟨p, hp, heq⟩ := anchor_mem_right hne
  have hpro := hsub p hp
  rw [RoomDrawer.right_outlets, List.mem_filter] at hpro
  obtain ⟨hpo, hcond⟩ := hpro
  exact ⟨heq ▸ of_decide_eq_true hcond, heq ▸ hgo p hpo⟩

lemma left_anchor_facts {inlet : RoomDrawer.AirPoint} {outlets : List RoomDrawer.AirPoint}
    (hgo : ∀ p ∈ outlets, RoomDrawer.on_half_grid p.mx)
    {g : List RoomDrawer.AirPoint} (hg : g ∈ RoomDrawer.left_groups inlet outlets) :
    RoomDrawer.group_first_x_left g < inlet.mx - RoomDrawer.eps
    ∧ RoomDrawer.on_half_grid (RoomDrawer.group_first_x_left g) := by
  obtain ⟨hne, hsub⟩ := group_outlets_mem (by rw [RoomDrawer.left_groups] at hg; exact hg)
  obtain ⟨p, hp, heq⟩ := anchor_mem_left hne
  have hpro := hsub p hp
  rw [RoomDrawer.left_outlets, List.mem_filter] at hpro
  obtain ⟨hpo, hcond⟩ := hpro
  exact ⟨heq ▸ of_decide_eq_true hcond, heq ▸ hgo p hpo⟩

end SpineFlowHelpersB

section SpineFlowHelpersC

lemma spine_right_mem {inlet : RoomDrawer.AirPoint} {m : List (ℚ × ℚ)} {dp r : ℚ}
    {seg : RoomDrawer.BSeg} (h : seg ∈ RoomDrawer.spine_segs_right inlet m dp r) :
    ∃ x1 x2 : ℚ,
      (x1, x2) ∈ (RoomDrawer.sorted_unique (inlet.mx :: m.map Prod.fst)).zip
        (RoomDrawer.sorted_unique (inlet.mx :: m.map Prod.fst)).tail
      ∧ seg = ⟨x1, inlet.my, x2, inlet.my,
          (if RoomDrawer.rabs (x1 - inlet.mx) < RoomDrawer.eps then RoomDrawer.dict_values_sum m
           else RoomDrawer.flow_downstream_from_right m x1), false⟩
      ∧ 0 < (if RoomDrawer.rabs (x1 - inlet.mx) < RoomDrawer.eps then RoomDrawer.dict_values_sum m
           else RoomDrawer.flow_downstream_from_right m x1) := by
  rw [RoomDrawer.spine_segs_right] at h
  simp only [List.mem_filterMap] at h
  obtain ⟨q, hq, hfq⟩ := h
  refine ⟨q.1, q.2, hq, ?_⟩
  split_ifs at hfq with h1 hc h2 h3 h2 h3
  · obtain rfl := Option.some.inj hfq
    exact ⟨by simp only [if_pos hc], by rw [if_pos hc]; exact lt_of_not_le h2⟩
  · obtain rfl := Option.some.inj hfq
    exact ⟨by simp only [if_neg hc], by rw [if_neg hc]; exact lt_of_not_le h2⟩

lemma spine_left_mem {inlet : RoomDrawer.AirPoint} {m : List (ℚ × ℚ)} {dp r : ℚ}
    {seg : RoomDrawer.BSeg} (h : seg ∈ RoomDrawer.spine_segs_left inlet m dp r) :
    ∃ x1 x2 : ℚ,
      (x1, x2) ∈ (RoomDrawer.sorted_unique_desc (inlet.mx :: m.map Prod.fst)).zip
        (RoomDrawer.sorted_unique_desc (inlet.mx :: m.map Prod.fst)).tail
      ∧ seg = ⟨x1, inlet.my, x2, inlet.my,
          (if RoomDrawer.rabs (x1 - inlet.mx) < RoomDrawer.eps then RoomDrawer.dict_values_sum m
           else RoomDrawer.flow_downstream_from_left m x1), false⟩
      ∧ 0 < (if RoomDrawer.rabs (x1 - inlet.mx) < RoomDrawer.eps then RoomDrawer.dict_values_sum m
           else RoomDrawer.flow_downstream_from_left m x1) := by
  rw [RoomDrawer.spine_segs_left] at h
  simp only [List.mem_filterMap] at h
  obtain ⟨q, hq, hfq⟩ := h
  refine ⟨q.1, q.2, hq, ?_⟩
  split_ifs at hfq with h1 hc h2 h3 h2 h3
  · obtain rfl := Option.some.inj hfq
    exact ⟨by simp only [if_pos hc], by rw [if_pos hc]; exact lt_of_not_le h2⟩
  · obtain rfl := Option.some.inj hfq
    exact ⟨by simp only [if_neg hc], by rw [if_neg hc]; exact lt_of_not_le h2⟩

lemma dict_values_sum_map (G : List (List RoomDrawer.AirPoint))
    (anchor : List RoomDrawer.AirPoint → ℚ) :
    RoomDrawer.dict_values_sum (G.map fun g => (anchor g, RoomDrawer.group_flow g)) =
      (G.map RoomDrawer.group_flow).sum := by
  rw [RoomDrawer.dict_values_sum, List.map_map]
  rfl

lemma downstream_right_map (G : List (List RoomDrawer.AirPoint))
    (anchor : List RoomDrawer.AirPoint → ℚ) (x : ℚ) :
    RoomDrawer.flow_downstream_from_right (G.map fun g => (anchor g, RoomDrawer.group_flow g)) x =
      ((G.filter fun g => decide (x + RoomDrawer.eps < anchor g)).map RoomDrawer.group_flow).sum := by
  rw [RoomDrawer.flow_downstream_from_right, List.filter_map, List.map_map]
  rfl

lemma downstream_left_map (G : List (List RoomDrawer.AirPoint))
    (anchor : List RoomDrawer.AirPoint → ℚ) (x : ℚ) :
    RoomDrawer.flow_downstream_from_left (G.map fun g => (anchor g, RoomDrawer.group_flow g)) x =
      ((G.filter fun g => decide (anchor g < x - RoomDrawer.eps)).map RoomDrawer.group_flow).sum := by
  rw [RoomDrawer.flow_downstream_from_left, List.filter_map, List.map_map]
  rfl

end SpineFlowHelpersC

section SpineFlowClaims

/-- C1 counterexample: inlet `(0,0)` flow 600 with outlets `(2,1)` flow 300
and `(2,3)` flow 300 forms two distinct right-side y-groups that share the
representative x-coordinate 2; the `right_group_map` dict assignment
overwrites the first group's entry, so the spine segment leaving the
inlet carries 300 — not the 600 total of the outlet groups strictly
farther from the inlet — on a configuration the builder accepts. -/
theorem C1_counterexample :
    RoomDrawer.spine_segs_right ⟨0, 0, RoomDrawer.AKind.inlet, 600⟩
        (RoomDrawer.right_group_map ⟨0, 0, RoomDrawer.AKind.inlet, 600⟩
          [⟨2, 1, RoomDrawer.AKind.outlet, 300⟩, ⟨2, 3, RoomDrawer.AKind.outlet, 300⟩]) 1 2 =
      [⟨0, 0, 2, 0, 300, false⟩]
    ∧ RoomDrawer.spec_beyond_right
        (RoomDrawer.right_groups ⟨0, 0, RoomDrawer.AKind.inlet, 600⟩
          [⟨2, 1, RoomDrawer.AKind.outlet, 300⟩, ⟨2, 3, RoomDrawer.AKind.outlet, 300⟩]) 0 = 600
    ∧ (300 : ℚ) ≠ 600
    ∧ (RoomDrawer.draw_duct_network
        [⟨0, 0, RoomDrawer.AKind.inlet, 600⟩, ⟨2, 1, RoomDrawer.AKind.outlet, 300⟩,
         ⟨2, 3, RoomDrawer.AKind.outlet, 300⟩] [] 1 2).error = none := by
  refine ⟨by with_unfolding_all decide, by with_unfolding_all decide, by norm_num,
    by with_unfolding_all decide⟩

/-- C1 (amended): provided the outlet x-coordinates lie on the palette's
0.5 m snap grid and, on each side, distinct outlet groups have distinct
representative x-coordinates, every horizontal spine sub-segment built on
a side of the inlet runs at inlet height away from the inlet and carries
exactly the total airflow of the outlet groups strictly farther from the
inlet than its near-inlet endpoint; in particular, for one inlet of flow
1000 and three outlets at increasing distance with flows 300/300/400, the
spine carries 1000, then 700, then 400. -/
theorem C1_spine_downstream_flow (inlet : RoomDrawer.AirPoint)
    (outlets : List RoomDrawer.AirPoint) (dp r : ℚ)
    (hgo : ∀ p ∈ outlets, RoomDrawer.on_half_grid p.mx)
    (hrinj : ((RoomDrawer.right_groups inlet outlets).map RoomDrawer.group_first_x_right).Nodup)
    (hlinj : ((RoomDrawer.left_groups inlet outlets).map RoomDrawer.group_first_x_left).Nodup) :
    (∀ seg ∈ RoomDrawer.spine_segs_right inlet (RoomDrawer.right_group_map inlet outlets) dp r,
      seg.my1 = inlet.my ∧ seg.my2 = inlet.my ∧ seg.vertical_only = false
      ∧ seg.mx1 < seg.mx2 ∧ 0 < seg.flow
      ∧ seg.flow = RoomDrawer.spec_beyond_right (RoomDrawer.right_groups inlet outlets) seg.mx1
      ∧ (RoomDrawer.right_outlets inlet outlets ≠ [] →
          seg ∈ RoomDrawer.build_segments inlet outlets dp r))
    ∧ (∀ seg ∈ RoomDrawer.spine_segs_left inlet (RoomDrawer.left_group_map inlet outlets) dp r,
      seg.my1 = inlet.my ∧ seg.my2 = inlet.my ∧ seg.vertical_only = false
      ∧ seg.mx2 < seg.mx1 ∧ 0 < seg.flow
      ∧ seg.flow = RoomDrawer.spec_beyond_left (RoomDrawer.left_groups inlet outlets) seg.mx1
      ∧ (RoomDrawer.left_outlets inlet outlets ≠ [] →
          seg ∈ RoomDrawer.build_segments inlet outlets dp r))
    ∧ RoomDrawer.spine_segs_right ⟨0, 0, RoomDrawer.AKind.inlet, 1000⟩
        (RoomDrawer.right_group_map ⟨0, 0, RoomDrawer.AKind.inlet, 1000⟩
          [⟨1, 1, RoomDrawer.AKind.outlet, 300⟩, ⟨2, 2, RoomDrawer.AKind.outlet, 300⟩,
           ⟨3, 3, RoomDrawer.AKind.outlet, 400⟩]) 1 2 =
      [⟨0, 0, 1, 0, 1000, false⟩, ⟨1, 0, 2, 0, 700, false⟩, ⟨2, 0, 3, 0, 400, false⟩] := by
  have hmapr : RoomDrawer.right_group_map inlet outlets =
      (RoomDrawer.right_groups inlet outlets).map
        (fun g => (RoomDrawer.group_first_x_right g, RoomDrawer.group_flow g)) := by
    rw [RoomDrawer.right_group_map]
    have h := dict_fold_eq RoomDrawer.group_first_x_right
      (RoomDrawer.right_groups inlet outlets) [] hrinj (by intro g hg; simp)
    simpa using h
  have hmapl : RoomDrawer.left_group_map inlet outlets =
      (RoomDrawer.left_groups inlet outlets).map
        (fun g => (RoomDrawer.group_first_x_left g, RoomDrawer.group_flow g)) := by
    rw [RoomDrawer.left_group_map]
    have h := dict_fold_eq RoomDrawer.group_first_x_left
      (RoomDrawer.left_groups inlet outlets) [] hlinj (by intro g hg; simp)
    simpa using h
  refine ⟨?_, ?_, by with_unfolding_all decide⟩
  · intro seg hseg
    obtain ⟨x1, x2, hpair, rfl, hQpos⟩ := spine_right_mem hseg
    have hlt : x1 < x2 := pairwise_zip_tail (sorted_unique_pairwise_lt _) _ hpair
    have hx1mem : x1 ∈ inlet.mx ::
        (RoomDrawer.right_group_map inlet outlets).map Prod.fst :=
      mem_sorted_unique.mp (mem_zip_tail hpair).1
    have hanch : ∀ y ∈ (RoomDrawer.right_group_map inlet outlets).map Prod.fst,
        ∃ g ∈ RoomDrawer.right_groups inlet outlets,
          RoomDrawer.group_first_x_right g = y := by
      intro y hy
      rw [hmapr, List.map_map] at hy
      obtain ⟨g, hg, hgy⟩ := List.mem_map.mp hy
      exact ⟨g, hg, hgy⟩
    refine ⟨rfl, rfl, rfl, hlt, hQpos, ?_, ?_⟩
    · show (if RoomDrawer.rabs (x1 - inlet.mx) < RoomDrawer.eps then _ else _) = _
      by_cases hc : RoomDrawer.rabs (x1 - inlet.mx) < RoomDrawer.eps
      · have hx1 : x1 = inlet.mx := by
          rcases List.mem_cons.mp hx1mem with h | h
          · exact h
          · obtain ⟨g, hg, hgy⟩ := hanch x1 h
            have hfact := right_anchor_facts hgo hg
            rw [hgy] at hfact
            exfalso
            rw [rabs_eq_abs, abs_of_pos (by linarith [hfact.1, eps_pos])] at hc
            linarith [hfact.1, eps_pos]
        rw [if_pos hc, hmapr, dict_values_sum_map, RoomDrawer.spec_beyond_right]
        have hfil : (RoomDrawer.right_groups inlet outlets).filter
            (fun g => decide (x1 < RoomDrawer.group_first_x_right g)) =
            RoomDrawer.right_groups inlet outlets := by
          apply List.filter_eq_self.mpr
          intro g hg
          have hfact := right_anchor_facts hgo hg
          exact decide_eq_true (by rw [hx1]; linarith [hfact.1, eps_pos])
        rw [hfil]
      · have hx1ne : x1 ≠ inlet.mx := by
          intro h
          apply hc
          rw [h, sub_self]
          show RoomDrawer.rabs 0 < _
          rw [rabs_eq_abs, abs_zero]
          exact eps_pos
        have hx1k : x1 ∈ (RoomDrawer.right_group_map inlet outlets).map Prod.fst := by
          rcases List.mem_cons.mp hx1mem with h | h
          · exact absurd h hx1ne
          · exact h
        obtain ⟨g0, hg0, hg0y⟩ := hanch x1 hx1k
        have hx1grid : RoomDrawer.on_half_grid x1 :=
          hg0y ▸ (right_anchor_facts hgo hg0).2
        rw [if_neg hc, hmapr, downstream_right_map, RoomDrawer.spec_beyond_right]
        have hfil : (RoomDrawer.right_groups inlet outlets).filter
            (fun g => decide (x1 + RoomDrawer.eps < RoomDrawer.group_first_x_right g)) =
            (RoomDrawer.right_groups inlet outlets).filter
            (fun g => decide (x1 < RoomDrawer.group_first_x_right g)) := by
          apply List.filter_congr
          intro g hg
          have hfact := right_anchor_facts hgo hg
          exact decide_eq_decide.mpr (grid_lt_iff hx1grid hfact.2).symm
        rw [hfil]
    · intro hro
      simp only [RoomDrawer.build_segments, if_neg hro, List.mem_append]
      tauto
  · intro seg hseg
    obtain ⟨x1, x2, hpair, rfl, hQpos⟩ := spine_left_mem hseg
    have hlt : x2 < x1 := pairwise_zip_tail (sorted_unique_desc_pairwise_gt _) _ hpair
    have hx1mem : x1 ∈ inlet.mx ::
        (RoomDrawer.left_group_map inlet outlets).map Prod.fst :=
      mem_sorted_unique_desc.mp (mem_zip_tail hpair).1
    have hanch : ∀ y ∈ (RoomDrawer.left_group_map inlet outlets).map Prod.fst,
        ∃ g ∈ RoomDrawer.left_groups inlet outlets,
          RoomDrawer.group_first_x_left g = y := by
      intro y hy
      rw [hmapl, List.map_map] at hy
      obtain ⟨g, hg, hgy⟩ := List.mem_map.mp hy
      exact ⟨g, hg, hgy⟩
    refine ⟨rfl, rfl, rfl, hlt, hQpos, ?_, ?_⟩
    · show (if RoomDrawer.rabs (x1 - inlet.mx) < RoomDrawer.eps then _ else _) = _
      by_cases hc : RoomDrawer.rabs (x1 - inlet.mx) < RoomDrawer.eps
      · have hx1 : x1 = inlet.mx := by
          rcases List.mem_cons.mp hx1mem with h | h
          · exact h
          · obtain ⟨g, hg, hgy⟩ := hanch x1 h
            have hfact := left_anchor_facts hgo hg
            rw [hgy] at hfact
            exfalso
            rw [rabs_eq_abs, abs_of_neg (by linarith [hfact.1, eps_pos])] at hc
            linarith [hfact.1, eps_pos]
        rw [if_pos hc, hmapl, dict_values_sum_map, RoomDrawer.spec_beyond_left]
        have hfil : (RoomDrawer.left_groups inlet outlets).filter
            (fun g => decide (RoomDrawer.group_first_x_left g < x1)) =
            RoomDrawer.left_groups inlet outlets := by
          apply List.filter_eq_self.mpr
          intro g hg
          have hfact := left_anchor_facts hgo hg
          exact decide_eq_true (by rw [hx1]; linarith [hfact.1, eps_pos])
        rw [hfil]
      · have hx1ne : x1 ≠ inlet.mx := by
          intro h
          apply hc
          rw [h, sub_self]
          show RoomDrawer.rabs 0 < _
          rw [rabs_eq_abs, abs_zero]
          exact eps_pos
        have hx1k : x1 ∈ (RoomDrawer.left_group_map inlet outlets).map Prod.fst := by
          rcases List.mem_cons.mp hx1mem with h | h
          · exact absurd h hx1ne
          · exact h
        obtain ⟨g0, hg0, hg0y⟩ := hanch x1 hx1k
        have hx1grid : RoomDrawer.on_half_grid x1 :=
          hg0y ▸ (left_anchor_facts hgo hg0).2
        rw [if_neg hc, hmapl, downstream_left_map, RoomDrawer.spec_beyond_left]
        have hfil : (RoomDrawer.left_groups inlet outlets).filter
            (fun g => decide (RoomDrawer.group_first_x_left g < x1 - RoomDrawer.eps)) =
            (RoomDrawer.left_groups inlet outlets).filter
            (fun g => decide (RoomDrawer.group_first_x_left g < x1)) := by
          apply List.filter_congr
          intro g hg
          have hfact := left_anchor_facts hgo hg
          refine decide_eq_decide.mpr ?_
          rw [grid_lt_iff hfact.2 hx1grid]
          constructor <;> intro <;> linarith
        rw [hfil]
    · intro hlo
      simp only [RoomDrawer.build_segments, if_neg hlo, List.mem_append]
      tauto

/-- C1 witness: the amended theorem applied to the claim's own scenario
(inlet flow 1000 at the origin, outlets at distances 1, 2, 3 with flows
300/300/400), extracting the concrete spine
`1000 → 700 → 400`. -/
theorem C1_spine_downstream_flow_witness :
    RoomDrawer.spine_segs_right ⟨0, 0, RoomDrawer.AKind.inlet, 1000⟩
        (RoomDrawer.right_group_map ⟨0, 0, RoomDrawer.AKind.inlet, 1000⟩
          [⟨1, 1, RoomDrawer.AKind.outlet, 300⟩, ⟨2, 2, RoomDrawer.AKind.outlet, 300⟩,
           ⟨3, 3, RoomDrawer.AKind.outlet, 400⟩]) 1 2 =
      [⟨0, 0, 1, 0, 1000, false⟩, ⟨1, 0, 2, 0, 700, false⟩, ⟨2, 0, 3, 0, 400, false⟩] :=
  (C1_spine_downstream_flow ⟨0, 0, RoomDrawer.AKind.inlet, 1000⟩
      [⟨1, 1, RoomDrawer.AKind.outlet, 300⟩, ⟨2, 2, RoomDrawer.AKind.outlet, 300⟩,
       ⟨3, 3, RoomDrawer.AKind.outlet, 400⟩] 1 2
      (by
        intro p hp
        fin_cases hp
        · exact ⟨2, by norm_num⟩
        · exact ⟨4, by norm_num⟩
        · exact ⟨6, by norm_num⟩)
      (by with_unfolding_all decide)
      (by with_unfolding_all decide)).2.2

end SpineFlowClaims
